import Mathlib

/-!
# ConversationInterface: the conversation session client

A shallow embedding of the event handlers of
`src/frontend/src/components/ConversationInterface.jsx`.

The React component keeps its state in `useState` cells and reaches the outside world through
the web socket, the toast library and the speech synthesis service.  Here the cells are the
fields of `State`; the outside world is recorded in the same record as append-only logs
(`toasts`, `sent`, `speakLog`) and as the few environment facts the handlers test
(`wsReadyState`, `hasSpeechSynthesis`).  A handler is a function `State → State`: every
`setX(v)` of the source is the field update `x := v`, an updater function passed to a setter
receives the cell as it is when the handler runs, and so does a read through a ref or of
`window`.  The clock reading `new Date().toLocaleTimeString()` is an input of the handler
(`now`).

A state variable is a constant of the render that defined the function reading it.  The
functions the user interface calls (`handleSubmit`, `toggleVoice`, `startRecording`,
`stopRecording`, `endConversation`) are bound anew at every render, so for them the constant
is the cell as it is when they run.  The handlers of the socket and of the recognition object
are created once, by the effect that runs after the first render (`useEffect` with the
dependency `sessionId`, a prop taken to keep its value while the component is mounted), and
`ws.onmessage` and `recognition.onresult` call the `speakText` and the `sendMessage` of that
render: the state variables they read (`initialMessageReceived`, `voiceEnabled`, `agentName`,
`participantName`, `loading`, `connected`) are those of the first render, `initialState`,
whatever the cells hold later.  The functions that read state variables are written with the
render as an argument (`speakTextOf`, `sendMessageOf`, `onmessageOf`, `onresultOf`) and
instantiated for their callers.

The summary is computed by `generateConversationSummary` and `extractKeyTopics`.  Texts are
Lean strings; where the source counts or cuts characters (`length`, `substring`) the model
works on the UTF-16 code units of the text.  The built-ins `toLowerCase` and `toLocaleString`
are parameters.  The object `wordCount` is modelled as the list of its own properties in order
of creation, together with what a plain object inherits from `Object.prototype`; the
enumeration `Object.entries` and the stable sort follow ECMAScript.  Times are integers of
milliseconds; the arithmetic of the duration is that of IEEE 754 doubles, each operation
rounded to the nearest double (`toDouble`).

The session as a whole is the type `Action` with its effect `act`: the calls the user
interface makes and the events of the socket, of the recognition object and of the utterances,
each event carrying what the browser does with it (the ready state of the socket, the queue of
the synthesis channel, the started flag of the recognition object).  Once the summary is
shown the component renders the summary view in place of the conversation view, and the calls
of the user interface are no longer there to be made.
-/

namespace ConversationInterface

/-! ## JavaScript values -/

/-- A value as `JSON.parse` yields it for a field of the payload; `undefined` is an absent
field and `object` stands for any object or array.  Numbers are the integral ones. -/
inductive JsVal where
  | undefined
  | null
  | bool (b : Bool)
  | num (n : Int)
  | str (s : String)
  | object
  deriving DecidableEq, Repr

/-- JavaScript truthiness, as tested by `if (v)`, `v || w` and `!v`. -/
def truthy : JsVal → Bool
  | .undefined => false
  | .null => false
  | .bool b => b
  | .num n => n != 0
  | .str s => s != ""
  | .object => true

/-- The JavaScript expression `a || b`. -/
def jsOr (a b : JsVal) : JsVal := if truthy a then a else b

/-- Whether a value is a string. -/
def JsVal.isString : JsVal → Bool
  | .str _ => true
  | _ => false

/-- White space and line terminators of ECMAScript, the characters `String.prototype.trim`
removes. -/
def isJsWhiteSpace (c : Char) : Bool :=
  let n := c.val.toNat
  n == 0x09 || n == 0x0A || n == 0x0B || n == 0x0C || n == 0x0D || n == 0x20 || n == 0xA0 ||
  n == 0x1680 || (0x2000 ≤ n && n ≤ 0x200A) || n == 0x2028 || n == 0x2029 || n == 0x202F ||
  n == 0x205F || n == 0x3000 || n == 0xFEFF

/-- The method `String.prototype.trim`. -/
def jsTrim (s : String) : String :=
  ⟨((s.data.dropWhile isJsWhiteSpace).reverse.dropWhile isJsWhiteSpace).reverse⟩

/-! ## Data model -/

/-- One entry of `messages`: `{ sender, message, timestamp, type }`. -/
structure Turn where
  sender : String
  message : JsVal
  timestamp : String
  type : JsVal
  deriving DecidableEq, Repr

/-- The object parsed from `event.data`; each field is `undefined` when absent. -/
structure Payload where
  error : JsVal := .undefined
  type : JsVal := .undefined
  message : JsVal := .undefined
  agent_name : JsVal := .undefined
  participant_name : JsVal := .undefined
  deriving DecidableEq, Repr

/-- The object `sendMessage` serialises onto the socket: `{ message, type }`. -/
structure Outbound where
  message : String
  type : String
  deriving DecidableEq, Repr

/-- A call of the toast library. -/
inductive Toast where
  | success (text : JsVal)
  | error (text : JsVal)
  deriving DecidableEq, Repr

/-- One entry of the result of `extractKeyTopics`: `{ word, count }`. -/
structure Topic where
  word : String
  count : Nat
  deriving DecidableEq, Repr

/-- One entry of `conversationFlow`: `{ sender, preview }`. -/
structure FlowEntry where
  sender : String
  preview : List Nat
  deriving DecidableEq, Repr

/-- The object `generateConversationSummary` returns. -/
structure Summary where
  participantName : JsVal
  agentName : JsVal
  duration : String
  totalMessages : Nat
  userMessages : Nat
  agentMessages : Nat
  startTime : Option String
  endTime : String
  keyTopics : Option (List Topic)
  conversationFlow : List FlowEntry
  deriving DecidableEq, Repr

/-- The value of `WebSocket.OPEN`. -/
def WebSocket.OPEN : Nat := 1

/-- The `useState` cells of the component, followed by the environment the handlers test and
the logs of what they emit. -/
structure State where
  messages : List Turn := []
  currentMessage : String := ""
  isRecording : Bool := false
  loading : Bool := false
  connected : Bool := false
  agentName : JsVal := .str ""
  participantName : JsVal := .str ""
  isSpeaking : Bool := false
  voiceEnabled : Bool := true
  isListening : Bool := false
  initialMessageReceived : Bool := false
  micLevel : Nat := 0
  /-- The `readyState` of `websocketRef.current`, `none` while the ref is null. -/
  wsReadyState : Option Nat := none
  /-- Whether `window.speechSynthesis` exists. -/
  hasSpeechSynthesis : Bool := true
  /-- Payloads handed to `websocketRef.current.send`, oldest first. -/
  sent : List Outbound := []
  /-- Toasts raised, oldest first. -/
  toasts : List Toast := []
  /-- Utterances active or queued on `window.speechSynthesis`. -/
  synthQueue : List JsVal := []
  /-- Every text handed to `window.speechSynthesis.speak`, oldest first. -/
  speakLog : List JsVal := []
  /-- The cell `conversationStartTime`: milliseconds since the epoch, `none` for `null`. -/
  conversationStartTime : Option Int := none
  /-- Whether `micStreamRef.current` holds a stream. -/
  micStreamRef : Bool := false
  /-- How many times the tracks of the microphone stream were stopped. -/
  trackStops : Nat := 0
  /-- Whether `audioContextRef.current` holds an audio context. -/
  audioContextRef : Bool := false
  /-- How many times the audio context was closed. -/
  audioContextCloses : Nat := 0
  /-- How many times the `WebSocket` constructor returned a socket. -/
  socketsCreated : Nat := 0
  /-- Whether `recognitionRef.current` holds a recognition object. -/
  recognitionRef : Bool := false
  /-- Whether the recognition object is started: `start()` was called and neither an `end`
  nor an `error` event has closed the session; a further `start()` then throws. -/
  recognitionStarted : Bool := false
  /-- How many calls of `recognition.start()` succeeded; each one leads to one `start`
  event. -/
  recognitionStarts : Nat := 0
  /-- How many times `recognition.stop()` was called. -/
  recognitionStops : Nat := 0
  /-- The cell `showSummary`. -/
  showSummary : Bool := false
  /-- The cell `conversationSummary`. -/
  conversationSummary : Option Summary := none
  deriving DecidableEq, Repr

/-- The state of the first render. -/
def initialState : State := {}

/-! ## Handlers -/

/-- The function `speakText` as the render with state `render` defines it, called when the
state is `s`: cancel what is being spoken, then speak `text`.  The constant `voiceEnabled` is
that of the render; `window.speechSynthesis` is read when the function runs. -/
def speakTextOf (render : State) (text : JsVal) (s : State) : State :=
  if !render.voiceEnabled || !s.hasSpeechSynthesis then s
  else { s with synthQueue := [text], speakLog := s.speakLog ++ [text] }

/-- The function `speakText` of the current render. -/
def speakText (text : JsVal) (s : State) : State := speakTextOf s text s

/-- The object `newMessage` built by `ws.onmessage`. -/
def newMessage (now : String) (data : Payload) : Turn :=
  { sender := "agent", message := data.message, timestamp := now,
    type := jsOr data.type (.str "text") }

/-- The updater passed to `setMessages` by `ws.onmessage`, with its call of
`setInitialMessageReceived`.  The updater receives the transcript as it is (`prev`); the
constant `initialMessageReceived` it tests is that of the render which defined the handler. -/
def recordMessage (render : State) (now : String) (data : Payload) (s : State) : State :=
  if data.type = .str "welcome" ∧ render.initialMessageReceived = false then
    { s with initialMessageReceived := true, messages := [newMessage now data] }
  else if data.type ≠ .str "welcome" then
    { s with messages := s.messages ++ [newMessage now data] }
  else s

/-- The body of `ws.onmessage` as the render with state `render` defines it, run when the
state is `s`.  The argument `parsed` is the outcome of `JSON.parse(event.data)`: `none` when
parsing throws or yields `null` (reading a field then throws), both of which land in the
`catch` block.  The constants `voiceEnabled`, `agentName` and `participantName` and the
function `speakText` are those of the render. -/
def onmessageOf (render : State) (now : String) (parsed : Option Payload) (s : State) : State :=
  match parsed with
  | none => { s with loading := false }
  | some data =>
    if truthy data.error then
      { s with toasts := s.toasts ++ [Toast.error data.error] }
    else if data.type = .str "connection_info" then
      let s1 := if truthy data.agent_name then { s with agentName := data.agent_name } else s
      if truthy data.participant_name then
        { s1 with participantName := data.participant_name }
      else s1
    else
      let s1 :=
        if truthy data.message then
          let s0 := recordMessage render now data s
          if render.voiceEnabled && s.hasSpeechSynthesis then
            speakTextOf render data.message s0
          else s0
        else s
      let s2 :=
        if truthy data.agent_name && !truthy render.agentName then
          { s1 with agentName := data.agent_name }
        else s1
      let s3 :=
        if truthy data.participant_name && !truthy render.participantName then
          { s2 with participantName := data.participant_name }
        else s2
      { s3 with loading := false }

/-- The handler `ws.onmessage`.  It is assigned once, by `connectWebSocket` called from the
effect that runs after the first render, so it is the body above with the constants of the
first render: no welcome recorded, voice enabled, both names empty. -/
def onmessage (now : String) (parsed : Option Payload) (s : State) : State :=
  onmessageOf initialState now parsed s

/-- The function `sendMessage(message, type)` as the render with state `render` defines it,
called when the state is `s`.  The constants `loading` and `connected` of the guard are those
of the render; the socket is reached through the ref. -/
def sendMessageOf (render : State) (now : String) (message : String) (type : String)
    (s : State) : State :=
  if jsTrim message = "" ∨ render.loading = true ∨ render.connected = false then s
  else
    let userMessage : Turn :=
      { sender := "user", message := .str message, timestamp := now, type := .str type }
    { s with
      messages := s.messages ++ [userMessage]
      loading := true
      sent :=
        if s.wsReadyState = some WebSocket.OPEN then
          s.sent ++ [{ message := message, type := type }]
        else s.sent
      currentMessage := "" }

/-- The function `sendMessage(message, type)` of the current render. -/
def sendMessage (now : String) (message : String) (type : String) (s : State) : State :=
  sendMessageOf s now message type s

/-- The form handler `handleSubmit`: `sendMessage(currentMessage)`, the type defaulting to
`text`.  The form is bound to the handler of the current render. -/
def handleSubmit (now : String) (s : State) : State :=
  sendMessage now s.currentMessage "text" s

/-- One entry of `event.results`: the transcript of its first alternative and `isFinal`. -/
structure SpeechResult where
  transcript : String
  isFinal : Bool
  deriving DecidableEq, Repr

/-- The event delivered to `recognition.onresult`. -/
structure SpeechResultEvent where
  resultIndex : Nat
  results : List SpeechResult
  deriving DecidableEq, Repr

/-- The loop of `recognition.onresult`: the final transcripts from `resultIndex` on,
concatenated. -/
def finalTranscript (event : SpeechResultEvent) : String :=
  (event.results.drop event.resultIndex).foldl
    (fun acc r => if r.isFinal then acc ++ r.transcript else acc) ""

/-- The body of `recognition.onresult` as the render with state `render` defines it, run
when the state is `s`; the function `sendMessage` it calls is that of the render. -/
def onresultOf (render : State) (now : String) (event : SpeechResultEvent) (s : State) :
    State :=
  let ft := finalTranscript event
  if jsTrim ft ≠ "" then
    sendMessageOf render now (jsTrim ft) "voice" { s with currentMessage := ft }
  else s

/-- The handler `recognition.onresult`.  It is assigned once, by
`initializeSpeechRecognition` called from the effect that runs after the first render, so it
is the body above with the `sendMessage` of the first render, whose constant `connected` is
false. -/
def onresult (now : String) (event : SpeechResultEvent) (s : State) : State :=
  onresultOf initialState now event s

/-- The function `stopMicLevelMonitoring`. -/
def stopMicLevelMonitoring (s : State) : State :=
  { s with
    micLevel := 0
    trackStops := if s.micStreamRef then s.trackStops + 1 else s.trackStops
    audioContextCloses :=
      if s.audioContextRef then s.audioContextCloses + 1 else s.audioContextCloses }

/-- The handler `recognition.onerror`; the argument is `event.error`. -/
def onerror (error : String) (s : State) : State :=
  let s1 := stopMicLevelMonitoring { s with isRecording := false, isListening := false }
  if error = "aborted" ∨ error = "no-speech" then s1
  else if error = "not-allowed" then
    { s1 with
      toasts := s1.toasts ++ [Toast.error (.str
        "Microphone access denied. Please enable microphone permissions and try again.")] }
  else if error = "network" then
    { s1 with
      toasts := s1.toasts ++ [Toast.error (.str
        "Network error occurred. Please check your internet connection.")] }
  else if error = "audio-capture" then
    { s1 with
      toasts := s1.toasts ++ [Toast.error (.str
        "No microphone found. Please check your microphone connection.")] }
  else
    { s1 with
      toasts := s1.toasts ++ [Toast.error (.str
        ("Speech recognition error: " ++ error ++ ". Please try again."))] }

/-- The body of `connectWebSocket`: the socket is created, unless the constructor throws, in
which case the `catch` block raises a toast. -/
def connectWebSocket (constructorThrows : Bool) (s : State) : State :=
  if constructorThrows then
    { s with toasts := s.toasts ++ [Toast.error (.str "Failed to connect to conversation")] }
  else { s with socketsCreated := s.socketsCreated + 1, wsReadyState := some 0 }

/-- The handler `ws.onclose`; the argument is `event.code`. -/
def onclose (code : Nat) (s : State) : State :=
  let s1 := { s with connected := false }
  if code ≠ 1000 then
    { s1 with
      toasts := s1.toasts ++ [Toast.error (.str "Connection lost. Please refresh the page.")] }
  else s1

/-! ## Runs -/

/-- What can happen to the session: an inbound socket message, a call of `sendMessage`, a
submission of the form, a speech recognition result. -/
inductive Event where
  | inbound (now : String) (parsed : Option Payload)
  | send (now : String) (message : String) (type : String)
  | submit (now : String)
  | result (now : String) (event : SpeechResultEvent)
  deriving DecidableEq, Repr

/-- The handler an event runs: `ws.onmessage` and `recognition.onresult` as assigned after
the first render, `sendMessage` and `handleSubmit` as the current render defines them. -/
def step (s : State) : Event → State
  | .inbound now parsed => onmessage now parsed s
  | .send now message type => sendMessage now message type s
  | .submit now => handleSubmit now s
  | .result now event => onresult now event s

/-- The state after a sequence of events, handled in order. -/
def run (s : State) (es : List Event) : State := es.foldl step s

/-! ## The summary -/

/-- The UTF-16 code units of a character: the elements a JavaScript string is made of. -/
def utf16Units (c : Char) : List Nat :=
  let n := c.val.toNat
  if n < 0x10000 then [n]
  else [0xD800 + (n - 0x10000) / 0x400, 0xDC00 + (n - 0x10000) % 0x400]

/-- A text as the sequence of its UTF-16 code units. -/
def toUtf16 (s : String) : List Nat := s.data.flatMap utf16Units

/-- The property `length` of a string: its number of UTF-16 code units. -/
def jsLength (s : String) : Nat := (toUtf16 s).length

/-- The text `Array.prototype.join` makes of an element: empty for `undefined` and `null`,
the string itself for a string; numbers are the integers below 10^21 and `object` is read as
a plain object.  The turns `sendMessage` builds hold a string. -/
def jsToString : JsVal → String
  | .undefined => ""
  | .null => ""
  | .bool b => if b then "true" else "false"
  | .num n => toString n
  | .str s => s
  | .object => "[object Object]"

/-- The loop behind `split(/\s+/)`: `cur` is the piece being read, reversed, and `inSep`
tells whether the last character read was white space. -/
def splitWhiteSpaceAux (cur : List Char) (inSep : Bool) : List Char → List String
  | [] => [⟨cur.reverse⟩]
  | c :: cs =>
    if isJsWhiteSpace c then
      if inSep then splitWhiteSpaceAux [] true cs
      else ⟨cur.reverse⟩ :: splitWhiteSpaceAux [] true cs
    else splitWhiteSpaceAux (c :: cur) false cs

/-- The call `split(/\s+/)`: the pieces between the maximal runs of white space, an empty
piece standing before a leading run and after a trailing one. -/
def splitWhiteSpace (s : String) : List String := splitWhiteSpaceAux [] false s.data

/-- The array `commonWords` of `extractKeyTopics`. -/
def commonWords : List String :=
  ["the", "and", "or", "but", "in", "on", "at", "to", "for", "of", "with", "by", "is", "are",
    "was", "were", "been", "be", "have", "has", "had", "will", "would", "could", "should",
    "may", "might", "can", "i", "you", "he", "she", "it", "we", "they", "my", "your", "his",
    "her", "its", "our", "their", "me", "him", "her", "us", "them", "this", "that", "these",
    "those"]

/-- The string `allText` of `extractKeyTopics`.  The built-in `toLowerCase` is a parameter. -/
def allText (toLowerCase : String → String) (userMessages : List Turn) : String :=
  toLowerCase (" ".intercalate (userMessages.map (fun msg => jsToString msg.message)))

/-- The array `words` of `extractKeyTopics`. -/
def contentWords (toLowerCase : String → String) (userMessages : List Turn) : List String :=
  (splitWhiteSpace (allText toLowerCase userMessages)).filter
    (fun word => decide (jsLength word > 3) && !commonWords.contains word)

/-- The names under which the object `wordCount`, empty at first, inherits a function from
`Object.prototype`. -/
def inheritedFunctionNames : List String :=
  ["constructor", "__defineGetter__", "__defineSetter__", "hasOwnProperty",
    "__lookupGetter__", "__lookupSetter__", "isPrototypeOf", "propertyIsEnumerable",
    "toString", "valueOf", "toLocaleString"]

/-- Adding one to the own property `word` of the object, created with value 1 after the
existing ones when the object has none. -/
def bump (word : String) : List (String × Nat) → List (String × Nat)
  | [] => [(word, 1)]
  | (k, n) :: rest => if k = word then (k, n + 1) :: rest else (k, n) :: bump word rest

/-- The assignment `wordCount[word] = (wordCount[word] || 0) + 1` on an object given by its
own properties in order of creation.  Under the name `__proto__` the object reads its
prototype and the assignment of a text to it is ignored, so no property is created. -/
def countWord (wordCount : List (String × Nat)) (word : String) : List (String × Nat) :=
  if word = "__proto__" then wordCount else bump word wordCount

/-- The loop `words.forEach(...)` from the empty object. -/
def countWords (words : List String) : List (String × Nat) := words.foldl countWord []

/-- The number a string of decimal digits denotes. -/
def digitsValue (w : String) : Nat := w.data.foldl (fun n c => 10 * n + (c.toNat - 48)) 0

/-- Whether a property name is an array index: a decimal numeral without leading zero, below
2^32 - 1. -/
def isArrayIndex (w : String) : Bool :=
  !w.data.isEmpty && w.data.all (fun c => decide (48 ≤ c.toNat ∧ c.toNat ≤ 57)) &&
    (decide (w.data.length = 1) || w.data.head? != some (Char.ofNat 48)) &&
    decide (digitsValue w < 4294967295)

/-- The order of two array indices in the enumeration of the properties. -/
def indexOrder (a b : String × Nat) : Prop := digitsValue a.1 ≤ digitsValue b.1

instance : DecidableRel indexOrder := fun a b =>
  inferInstanceAs (Decidable (digitsValue a.1 ≤ digitsValue b.1))

instance indexOrder_isTotal : IsTotal (String × Nat) indexOrder :=
  ⟨fun a b => Nat.le_total (digitsValue a.1) (digitsValue b.1)⟩

instance indexOrder_isTrans : IsTrans (String × Nat) indexOrder :=
  ⟨fun _ _ _ h1 h2 => Nat.le_trans h1 h2⟩

/-- The call `Object.entries(wordCount)`: the array indices in ascending numeric order, then
the other names in order of creation. -/
def objectEntries (wordCount : List (String × Nat)) : List (String × Nat) :=
  (wordCount.filter (fun e => isArrayIndex e.1)).insertionSort indexOrder ++
    wordCount.filter (fun e => !isArrayIndex e.1)

/-- The comparator `([,a], [,b]) => b - a` is not positive: `a` may stay before `b`. -/
def countOrder (a b : String × Nat) : Prop := b.2 ≤ a.2

instance : DecidableRel countOrder := fun a b => inferInstanceAs (Decidable (b.2 ≤ a.2))

instance countOrder_isTotal : IsTotal (String × Nat) countOrder :=
  ⟨fun a b => Nat.le_total b.2 a.2⟩

instance countOrder_isTrans : IsTrans (String × Nat) countOrder :=
  ⟨fun _ _ _ h1 h2 => Nat.le_trans h2 h1⟩

/-- The function `extractKeyTopics`; the sort is the stable one ECMAScript prescribes.  The
result is `none` when a word names a function inherited from `Object.prototype`: its counter
then holds a text rather than a number, the comparator yields NaN and the order of the sort
is left to the implementation. -/
def extractKeyTopics (toLowerCase : String → String) (userMessages : List Turn) :
    Option (List Topic) :=
  let words := contentWords toLowerCase userMessages
  if words.any (fun word => inheritedFunctionNames.contains word) then none
  else
    some ((((objectEntries (countWords words)).insertionSort countOrder).take 5).map
      (fun e => { word := e.1, count := e.2 }))

/-- The function `Math.round` on the value of a double: the nearest integer, halves going
up. -/
def mathRound (q : ℚ) : Int := ⌊q + 1 / 2⌋

/-- The integer nearest to `q`, a tie going to the even one. -/
def roundHalfEven (q : ℚ) : Int :=
  if q - ⌊q⌋ < 1 / 2 then ⌊q⌋
  else if 1 / 2 < q - ⌊q⌋ then ⌊q⌋ + 1
  else if ⌊q⌋ % 2 = 0 then ⌊q⌋ else ⌊q⌋ + 1

/-- The IEEE 754 double that an arithmetic operation with exact result `q` returns: `q`
rounded to 53 significant bits, a tie going to the even significand.  The exponent is not
bounded here: the values the duration goes through, a difference of two times of at most
8.64e15 ms each and its quotients by 1000 and by 60, are zero or lie between 1e-5 and 2e16,
far from overflow and from the subnormal numbers. -/
def toDouble (q : ℚ) : ℚ :=
  if q = 0 then 0
  else (roundHalfEven (q / 2 ^ (Int.log 2 |q| - 52)) : ℚ) * 2 ^ (Int.log 2 |q| - 52)

/-- The constant `duration` of `generateConversationSummary`:
`Math.round((endTime - conversationStartTime) / 1000 / 60)`, or 0 without a start time.  The
two times are numbers of milliseconds of at most 8.64e15 in magnitude, which a double holds
exactly; the subtraction and the two divisions are operations on doubles. -/
def durationMinutes (conversationStartTime : Option Int) (endTime : Int) : Int :=
  match conversationStartTime with
  | some start =>
    mathRound (toDouble (toDouble (toDouble ((endTime - start : Int) : ℚ) / 1000) / 60))
  | none => 0

/-- The expression `msg.message.substring(0, 100) + (msg.message.length > 100 ? '...' : '')`
on a string, in UTF-16 code units. -/
def preview (text : String) : List Nat :=
  (toUtf16 text).take 100 ++ (if jsLength text > 100 then toUtf16 "..." else [])

/-- The callback of `messages.slice(0, 3).map(...)`; on a message that is not a string the
call of `substring` throws, which is `none`. -/
def flowEntry (msg : Turn) : Option FlowEntry :=
  match msg.message with
  | .str text => some { sender := msg.sender, preview := preview text }
  | _ => none

/-- The map of `flowEntry` over the turns, `none` as soon as one call throws. -/
def flowEntries : List Turn → Option (List FlowEntry)
  | [] => some []
  | msg :: rest =>
    match flowEntry msg, flowEntries rest with
    | some e, some es => some (e :: es)
    | _, _ => none

/-- The function `generateConversationSummary`, `none` when it throws.  The clock reading
`new Date()` is the argument `endTime`; the built-ins `toLowerCase` and `toLocaleString` are
parameters. -/
def generateConversationSummary (toLowerCase : String → String) (toLocaleString : Int → String)
    (endTime : Int) (s : State) : Option Summary :=
  let userMessages := s.messages.filter (fun msg => msg.sender = "user")
  let agentMessages := s.messages.filter (fun msg => msg.sender = "agent")
  let duration := durationMinutes s.conversationStartTime endTime
  match flowEntries (s.messages.take 3) with
  | none => none
  | some flow =>
    some
      { participantName := s.participantName
        agentName := s.agentName
        duration := toString duration ++ " minutes"
        totalMessages := s.messages.length
        userMessages := userMessages.length
        agentMessages := agentMessages.length
        startTime := s.conversationStartTime.map toLocaleString
        endTime := toLocaleString endTime
        keyTopics := extractKeyTopics toLowerCase userMessages
        conversationFlow := flow }

/-- The order in which `Object.entries` lists two names: an array index before any other
name, two array indices in ascending numeric order, two other names in the order of their
first occurrence among the words. -/
def entryBefore (words : List String) (a b : String) : Prop :=
  (isArrayIndex a = true ∧ isArrayIndex b = false) ∨
  (isArrayIndex a = true ∧ isArrayIndex b = true ∧ digitsValue a ≤ digitsValue b) ∨
  (isArrayIndex a = false ∧ isArrayIndex b = false ∧ words.indexOf a < words.indexOf b)

instance (words : List String) (a b : String) : Decidable (entryBefore words a b) := by
  unfold entryBefore
  infer_instance

/-- The built-in `toLowerCase` on the letters A to Z, for the concrete instances. -/
def asciiLowerCase (s : String) : String := ⟨s.data.map Char.toLower⟩

/-- A participant turn with the given text, as `sendMessage` builds it. -/
def userTurn (text : String) : Turn :=
  { sender := "user", message := .str text, timestamp := "10:00", type := .str "text" }

/-! ## The remaining handlers and the session as a whole -/

/-- The handler `ws.onopen`. -/
def ws.onopen (s : State) : State :=
  { s with connected := true, toasts := s.toasts ++ [Toast.success (.str "Connected to conversation")] }

/-- The handler `ws.onerror`. -/
def ws.onerror (s : State) : State :=
  { s with
    toasts := s.toasts ++ [Toast.error (.str "Connection error occurred")]
    connected := false
    loading := false }

/-- The ready state of a socket after `close()`: a connecting or open socket is closing, a
closing or closed one stays as it is, and there is nothing to close while the ref is null. -/
def WebSocket.close : Option Nat → Option Nat
  | some 0 => some 2
  | some 1 => some 2
  | r => r

/-- The handler `recognition.onstart`, up to the call of `setupMicLevelMonitoring`, whose
effects come when the microphone stream is granted. -/
def recognition.onstart (s : State) : State :=
  { s with isRecording := true, isListening := true }

/-- The continuation of `setupMicLevelMonitoring` once `getUserMedia` has answered: the stream
and the audio context are stored; a refusal is caught and logged.  The loop `updateMicLevel`
tests the constant `isRecording` of the first render, which is false, so it sets no level. -/
def setupMicLevelMonitoring (granted : Bool) (s : State) : State :=
  if granted then { s with micStreamRef := true, audioContextRef := true } else s

/-- The handler `recognition.onend`. -/
def recognition.onend (s : State) : State :=
  stopMicLevelMonitoring { s with isRecording := false, isListening := false }

/-- The function `startRecording`.  On a recognition object that is already started the call
of `start()` throws and the `catch` block runs. -/
def startRecording (s : State) : State :=
  if s.recognitionRef then
    if s.recognitionStarted then
      { s with
        isRecording := false
        toasts := s.toasts ++ [Toast.error (.str "Could not start voice recording")] }
    else
      { s with
        isRecording := true
        recognitionStarted := true
        recognitionStarts := s.recognitionStarts + 1
        toasts := s.toasts ++ [Toast.success (.str "Listening...")] }
  else
    { s with
      toasts := s.toasts ++
        [Toast.error (.str "Speech recognition not supported in this browser")] }

/-- The function `stopRecording`. -/
def stopRecording (s : State) : State :=
  if s.recognitionRef && s.isRecording then
    { s with
      recognitionStops := s.recognitionStops + 1
      toasts := s.toasts ++ [Toast.success (.str "Recording stopped")]
      isRecording := false
      isListening := false }
  else s

/-- The callback `utterance.onstart`. -/
def utterance.onstart (s : State) : State := { s with isSpeaking := true }

/-- The callback `utterance.onend`. -/
def utterance.onend (s : State) : State := { s with isSpeaking := false }

/-- The callback `utterance.onerror`. -/
def utterance.onerror (s : State) : State := { s with isSpeaking := false }

/-- The function `toggleVoice`.  Where `window.speechSynthesis` is missing, the call of
`cancel()` throws after the flag has been set. -/
def toggleVoice (s : State) : State :=
  let s1 := { s with voiceEnabled := !s.voiceEnabled }
  if s.voiceEnabled then
    if s.hasSpeechSynthesis then
      { s1 with
        synthQueue := []
        isSpeaking := false
        toasts := s1.toasts ++ [Toast.success (.str "Voice disabled")] }
    else s1
  else { s1 with toasts := s1.toasts ++ [Toast.success (.str "Voice enabled")] }

/-- The function `endConversation`; nothing happens when `generateConversationSummary`
throws. -/
def endConversation (toLowerCase : String → String) (toLocaleString : Int → String)
    (endTime : Int) (s : State) : State :=
  match generateConversationSummary toLowerCase toLocaleString endTime s with
  | none => s
  | some summary =>
    { s with
      conversationSummary := some summary
      showSummary := true
      wsReadyState := WebSocket.close s.wsReadyState
      toasts := s.toasts ++ [Toast.success (.str "Conversation ended. Generating summary...")] }

/-- The function `cleanup`, run when the component unmounts; `mediaRecorderRef` is never
assigned, so its branch does nothing. -/
def cleanup (s : State) : State :=
  { s with
    wsReadyState := WebSocket.close s.wsReadyState
    recognitionStops := if s.recognitionRef then s.recognitionStops + 1 else s.recognitionStops
    trackStops := if s.micStreamRef then s.trackStops + 1 else s.trackStops
    audioContextCloses :=
      if s.audioContextRef then s.audioContextCloses + 1 else s.audioContextCloses
    synthQueue := if s.hasSpeechSynthesis then [] else s.synthQueue }

/-- Whether the component renders the summary view: the test `showSummary &&
conversationSummary` ahead of the conversation view, which holds the form, the microphone
button and the buttons of `toggleVoice` and `endConversation`. -/
def summaryShown (s : State) : Bool := s.showSummary && s.conversationSummary.isSome

/-- Everything that can happen to the mounted component: calls of its functions by the user
interface and events of the socket, the recognition object and the utterances. -/
inductive Action where
  | inbound (now : String) (parsed : Option Payload)
  | send (now : String) (message : String) (type : String)
  | submit (now : String)
  | typing (text : String)
  | result (now : String) (event : SpeechResultEvent)
  | speak (text : JsVal)
  | toggleVoice
  | utteranceStart
  | utteranceEnd (current : Bool)
  | utteranceError (current : Bool)
  | startRecording
  | stopRecording
  | recognitionStart
  | recognitionEnd
  | recognitionError (error : String)
  | micStream (granted : Bool)
  | wsOpen
  | wsError
  | wsClose (code : Nat)
  | endConversation (endTime : Int)
  deriving DecidableEq, Repr

/-- The effect of an action.  The browser fires `open` on a connecting socket only, delivers
messages on an open socket only, and fires `close` once, on a socket that is not yet closed;
with an event of the socket comes the new ready state.  An utterance that ends or fails while
it is the current one leaves the queue, a superseded one has left it already; the end of a
recognition session lets `start()` be called again.  The calls of the user interface (send,
submit, typing, `toggleVoice`, `startRecording`, `stopRecording`, `endConversation`) come
from the conversation view and run the functions of the current render; none is made while
the summary view is shown.  The `disabled` attributes of the form are not modelled: every
such call is possible whenever the conversation view is shown.  The events of the socket and
of the recognition object run the handlers assigned after the first render.  The action
`speak` is a call of `speakText` as the current render defines it. -/
def act (toLowerCase : String → String) (toLocaleString : Int → String) (s : State) :
    Action → State
  | .inbound now parsed =>
    if s.wsReadyState = some WebSocket.OPEN then onmessage now parsed s else s
  | .send now message type => if summaryShown s then s else sendMessage now message type s
  | .submit now => if summaryShown s then s else handleSubmit now s
  | .typing text => if summaryShown s then s else { s with currentMessage := text }
  | .result now event => onresult now event s
  | .speak text => speakText text s
  | .toggleVoice => if summaryShown s then s else toggleVoice s
  | .utteranceStart => utterance.onstart s
  | .utteranceEnd current =>
    utterance.onend (if current then { s with synthQueue := s.synthQueue.drop 1 } else s)
  | .utteranceError current =>
    utterance.onerror (if current then { s with synthQueue := s.synthQueue.drop 1 } else s)
  | .startRecording => if summaryShown s then s else startRecording s
  | .stopRecording => if summaryShown s then s else stopRecording s
  | .recognitionStart => recognition.onstart s
  | .recognitionEnd => recognition.onend { s with recognitionStarted := false }
  | .recognitionError error => onerror error s
  | .micStream granted => setupMicLevelMonitoring granted s
  | .wsOpen => if s.wsReadyState = some 0 then ws.onopen { s with wsReadyState := some 1 } else s
  | .wsError => ws.onerror s
  | .wsClose code =>
    if s.wsReadyState = none ∨ s.wsReadyState = some 3 then s
    else onclose code { s with wsReadyState := some 3 }
  | .endConversation endTime =>
    if summaryShown s then s else endConversation toLowerCase toLocaleString endTime s

/-- The state after a sequence of actions, in order. -/
def runActions (toLowerCase : String → String) (toLocaleString : Int → String) (s : State)
    (acts : List Action) : State :=
  acts.foldl (act toLowerCase toLocaleString) s

/-- A value a counter of `wordCount` can hold: a number, or the text that `+ 1` makes of an
inherited function. -/
inductive CountVal where
  | num (n : Nat)
  | text (t : String)
  deriving DecidableEq, Repr

/-- The text of the function a plain object inherits under the given name, as the engines
print it; under `constructor` the function is `Object`. -/
def inheritedFunctionText (name : String) : String :=
  "function " ++ (if name = "constructor" then "Object" else name) ++ "() \x7b [native code] \x7d"

/-- The assignment `wordCount[word] = (wordCount[word] || 0) + 1` with every value the counter
can take: an own number grows by one, an own text gets the digit 1 appended, and a word
without own property starts from the inherited function when there is one. -/
def bumpVal (word : String) : List (String × CountVal) → List (String × CountVal)
  | [] =>
    if inheritedFunctionNames.contains word then
      [(word, .text (inheritedFunctionText word ++ "1"))]
    else [(word, .num 1)]
  | (k, v) :: rest =>
    if k = word then
      (k, match v with
        | .num n => .num (n + 1)
        | .text t => .text (t ++ "1")) :: rest
    else (k, v) :: bumpVal word rest

/-- The loop `words.forEach(...)` with every value the counters can take. -/
def countWordsVal (words : List String) : List (String × CountVal) :=
  words.foldl (fun wordCount word => if word = "__proto__" then wordCount else bumpVal word wordCount)
    []

/-- The actions through which the capture state is meant to change: start, stop and the
events of the recognition object that open or end a session. -/
def Action.touchesCapture : Action → Bool
  | .startRecording => true
  | .stopRecording => true
  | .recognitionStart => true
  | .recognitionEnd => true
  | .recognitionError _ => true
  | _ => false

/-- Two states with the same speech output: flag, service, queue and log. -/
def SameSpeech (s t : State) : Prop :=
  t.voiceEnabled = s.voiceEnabled ∧ t.hasSpeechSynthesis = s.hasSpeechSynthesis ∧
    t.speakLog = s.speakLog ∧ t.synthQueue = s.synthQueue

/-- Two states with the same capture state. -/
def SameCapture (s t : State) : Prop :=
  t.isRecording = s.isRecording ∧ t.isListening = s.isListening

/-- Two states with the same transcript, payloads sent, socket and connected flag. -/
def SameTraffic (s t : State) : Prop :=
  t.messages = s.messages ∧ t.sent = s.sent ∧ t.wsReadyState = s.wsReadyState ∧
    t.connected = s.connected

/-! ## Vocabulary of the transcript laws -/

/-- A payload that `ws.onmessage` treats as a welcome message: no truthy error, type welcome,
a truthy message. -/
def isWelcome (data : Payload) : Bool :=
  !truthy data.error && decide (data.type = .str "welcome") && truthy data.message

/-- A payload that `ws.onmessage` treats as an ordinary message: no truthy error, a type that
is neither connection_info nor welcome, a truthy message. -/
def isOrdinary (data : Payload) : Bool :=
  !truthy data.error && !decide (data.type = .str "connection_info") &&
    !decide (data.type = .str "welcome") && truthy data.message

/-- The agent turn of an inbound message when it is an ordinary one. -/
def ordinaryTurn : String × Option Payload → Option Turn
  | (now, some data) => if isOrdinary data then some (newMessage now data) else none
  | (_, none) => none

/-- Whether an inbound message is a welcome message. -/
def isWelcomeInbound : String × Option Payload → Bool
  | (_, some data) => isWelcome data
  | (_, none) => false

/-- The events of a sequence of inbound messages. -/
def inboundEvents (ps : List (String × Option Payload)) : List Event :=
  ps.map (fun p => Event.inbound p.1 p.2)

/-! ## Auxiliary lemmas -/

theorem jsTrim_eq_empty_iff (m : String) :
    jsTrim m = "" ↔ ∀ c ∈ m.data, isJsWhiteSpace c = true := by
  have key : ∀ l : List Char,
      (l.dropWhile isJsWhiteSpace).reverse.dropWhile isJsWhiteSpace = []
        ↔ ∀ c ∈ l, isJsWhiteSpace c = true := by
    intro l
    rw [List.dropWhile_eq_nil_iff]
    constructor
    · intro h
      rw [← List.dropWhile_eq_nil_iff]
      by_contra hne
      obtain ⟨a, t, hat⟩ := List.exists_cons_of_ne_nil hne
      have h1 : isJsWhiteSpace a = true := h a (by simp [hat])
      have h2 := List.head_dropWhile_not isJsWhiteSpace l hne
      simp [hat] at h2
      simp [h1] at h2
    · intro h c hc
      have : l.dropWhile isJsWhiteSpace = [] := List.dropWhile_eq_nil_iff.mpr h
      simp [this] at hc
  unfold jsTrim
  rw [← key m.data]
  constructor
  · intro h
    have := congrArg String.data h
    simpa using this
  · intro h
    rw [h]; rfl

theorem speakTextOf_messages (render : State) (text : JsVal) (s : State) :
    (speakTextOf render text s).messages = s.messages := by
  unfold speakTextOf; split <;> rfl

theorem speakTextOf_initialMessageReceived (render : State) (text : JsVal) (s : State) :
    (speakTextOf render text s).initialMessageReceived = s.initialMessageReceived := by
  unfold speakTextOf; split <;> rfl

theorem recordMessage_of_ne_welcome (render : State) (now : String) (data : Payload)
    (s : State) (hw : data.type ≠ .str "welcome") :
    recordMessage render now data s =
      { s with messages := s.messages ++ [newMessage now data] } := by
  unfold recordMessage
  rw [if_neg (fun h => hw h.1), if_pos hw]

/-- Under the constant of the first render, no welcome recorded, the updater treats every
welcome as the first one. -/
theorem recordMessage_of_welcome (now : String) (data : Payload) (s : State)
    (hw : data.type = .str "welcome") :
    recordMessage initialState now data s =
      { s with initialMessageReceived := true, messages := [newMessage now data] } := by
  unfold recordMessage
  rw [if_pos ⟨hw, rfl⟩]

/-- On a payload that is neither error-flagged nor a connection_info, the transcript is what
the updater of `setMessages` makes of it when the payload has a message, and is untouched
otherwise. -/
theorem onmessage_messages (now : String) (data : Payload) (s : State)
    (herr : truthy data.error = false) (hci : data.type ≠ .str "connection_info") :
    (onmessage now (some data) s).messages =
      if truthy data.message then (recordMessage initialState now data s).messages
      else s.messages := by
  unfold onmessage onmessageOf
  simp only [herr, hci, Bool.false_eq_true, if_false]
  split_ifs <;> simp [speakTextOf_messages]

theorem onmessage_initialMessageReceived (now : String) (data : Payload) (s : State)
    (herr : truthy data.error = false) (hci : data.type ≠ .str "connection_info") :
    (onmessage now (some data) s).initialMessageReceived =
      if truthy data.message then (recordMessage initialState now data s).initialMessageReceived
      else s.initialMessageReceived := by
  unfold onmessage onmessageOf
  simp only [herr, hci, Bool.false_eq_true, if_false]
  split_ifs <;> simp [speakTextOf_initialMessageReceived]

theorem onmessage_of_error (now : String) (data : Payload) (s : State)
    (herr : truthy data.error = true) :
    onmessage now (some data) s = { s with toasts := s.toasts ++ [Toast.error data.error] } := by
  unfold onmessage onmessageOf
  simp only [herr, if_true]

theorem onmessage_of_connection_info (now : String) (data : Payload) (s : State)
    (herr : truthy data.error = false) (hci : data.type = .str "connection_info") :
    onmessage now (some data) s =
      { s with
        agentName := if truthy data.agent_name then data.agent_name else s.agentName
        participantName :=
          if truthy data.participant_name then data.participant_name
          else s.participantName } := by
  unfold onmessage onmessageOf
  simp only [herr, hci, Bool.false_eq_true, if_false, if_true]
  split_ifs <;> rfl

theorem sendMessage_of_guard (now message type : String) (s : State)
    (h : jsTrim message = "" ∨ s.loading = true ∨ s.connected = false) :
    sendMessage now message type s = s := by
  unfold sendMessage sendMessageOf
  rw [if_pos h]

theorem sendMessage_of_not_guard (now message type : String) (s : State)
    (h : ¬ (jsTrim message = "" ∨ s.loading = true ∨ s.connected = false)) :
    sendMessage now message type s =
      { s with
        messages := s.messages ++ [⟨"user", .str message, now, .str type⟩]
        loading := true
        sent :=
          if s.wsReadyState = some WebSocket.OPEN then
            s.sent ++ [{ message := message, type := type }]
          else s.sent
        currentMessage := "" } := by
  unfold sendMessage sendMessageOf
  rw [if_neg h]

/-- The `sendMessage` that `recognition.onresult` calls is the one of the first render, whose
constant `connected` is false: the call returns at the guard, and all the handler does with
a final transcript that is not blank is to put it into the input field. -/
theorem onresult_eq (now : String) (event : SpeechResultEvent) (s : State) :
    onresult now event s =
      if jsTrim (finalTranscript event) ≠ "" then
        { s with currentMessage := finalTranscript event }
      else s := by
  unfold onresult onresultOf sendMessageOf
  simp only
  by_cases h1 : jsTrim (finalTranscript event) ≠ ""
  · have hg : jsTrim (jsTrim (finalTranscript event)) = "" ∨ initialState.loading = true ∨
        initialState.connected = false := Or.inr (Or.inr rfl)
    rw [if_pos h1, if_pos h1, if_pos hg]
  · rw [if_neg h1, if_neg h1]

theorem newMessage_of_welcome (now : String) (data : Payload)
    (hw : data.type = .str "welcome") :
    newMessage now data = ⟨"agent", data.message, now, .str "welcome"⟩ := by
  unfold newMessage
  rw [hw]
  rfl

theorem isWelcome_iff (data : Payload) :
    isWelcome data = true ↔
      truthy data.error = false ∧ data.type = .str "welcome" ∧ truthy data.message = true := by
  simp [isWelcome, and_assoc]

theorem isOrdinary_iff (data : Payload) :
    isOrdinary data = true ↔
      truthy data.error = false ∧ data.type ≠ .str "connection_info" ∧
        data.type ≠ .str "welcome" ∧ truthy data.message = true := by
  simp [isOrdinary, and_assoc]

/-- A welcome message becomes the whole transcript, whatever the transcript held and whether
or not a welcome has been recorded before. -/
theorem onmessage_welcome (now : String) (data : Payload) (s : State)
    (hw : isWelcome data = true) :
    (onmessage now (some data) s).messages = [⟨"agent", data.message, now, .str "welcome"⟩] ∧
    (onmessage now (some data) s).initialMessageReceived = true := by
  obtain ⟨herr, hty, hmsg⟩ := (isWelcome_iff data).mp hw
  have hci : data.type ≠ .str "connection_info" := by rw [hty]; decide
  rw [onmessage_messages now data s herr hci, onmessage_initialMessageReceived now data s herr hci,
    if_pos hmsg, if_pos hmsg, recordMessage_of_welcome now data s hty,
    ← newMessage_of_welcome now data hty]
  exact ⟨rfl, rfl⟩

/-- An inbound message that is not a welcome appends its ordinary turn, if it has one, and
leaves the welcome flag alone. -/
theorem onmessage_otherwise (now : String) (parsed : Option Payload) (s : State)
    (h : isWelcomeInbound (now, parsed) = false) :
    (onmessage now parsed s).messages = s.messages ++ (ordinaryTurn (now, parsed)).toList ∧
    (onmessage now parsed s).initialMessageReceived = s.initialMessageReceived := by
  cases parsed with
  | none => exact ⟨by simp [onmessage, onmessageOf, ordinaryTurn], rfl⟩
  | some data =>
    have hord := isOrdinary_iff data
    have hwel := isWelcome_iff data
    simp only [isWelcomeInbound] at h
    simp only [ordinaryTurn]
    cases herr : truthy data.error with
    | true =>
      have hno : isOrdinary data = false := by
        rw [Bool.eq_false_iff]; intro hc; rw [hord, herr] at hc; exact absurd hc.1 (by decide)
      rw [onmessage_of_error now data s herr, hno]
      exact ⟨by simp, rfl⟩
    | false =>
      by_cases hci : data.type = .str "connection_info"
      · have hno : isOrdinary data = false := by
          rw [Bool.eq_false_iff]; intro hc; exact ((hord.mp hc).2.1) hci
        rw [onmessage_of_connection_info now data s herr hci, hno]
        exact ⟨by simp, rfl⟩
      · rw [onmessage_messages now data s herr hci,
          onmessage_initialMessageReceived now data s herr hci]
        cases hmsg : truthy data.message with
        | false =>
          have hno : isOrdinary data = false := by
            rw [Bool.eq_false_iff]; intro hc; rw [hord, hmsg] at hc
            exact absurd hc.2.2.2 (by decide)
          rw [hno]
          exact ⟨by simp, by simp⟩
        | true =>
          have hw : data.type ≠ .str "welcome" := by
            intro hw
            rw [hwel.mpr ⟨herr, hw, hmsg⟩] at h
            exact absurd h (by decide)
          have hyes : isOrdinary data = true := hord.mpr ⟨herr, hci, hw, hmsg⟩
          rw [hyes, recordMessage_of_ne_welcome initialState now data s hw]
          exact ⟨by simp, by simp⟩

theorem run_cons (s : State) (e : Event) (es : List Event) :
    run s (e :: es) = run (step s e) es := rfl

theorem run_append (s : State) (es fs : List Event) :
    run s (es ++ fs) = run (run s es) fs := by
  unfold run
  rw [List.foldl_append]

/-! ## Inbound payloads, one at a time -/

/-- C3: a payload with a truthy message, no truthy error and a type that is neither
connection_info nor welcome appends exactly one agent turn at the end of the transcript: its
text is the message of the payload, its kind the type of the payload, or text when the type
is absent; the earlier turns stay as they were. -/
theorem onmessage_appends_agent_turn (now : String) (data : Payload) (s : State)
    (hmsg : truthy data.message = true) (herr : truthy data.error = false)
    (hci : data.type ≠ .str "connection_info") (hw : data.type ≠ .str "welcome") :
    ∃ t : Turn,
      (onmessage now (some data) s).messages = s.messages ++ [t] ∧
      t.sender = "agent" ∧ t.message = data.message ∧ t.timestamp = now ∧
      t.type = jsOr data.type (.str "text") ∧
      (truthy data.type = true → t.type = data.type) ∧
      (data.type = .undefined → t.type = .str "text") := by
  refine ⟨newMessage now data, ?_, rfl, rfl, rfl, rfl, ?_, ?_⟩
  · rw [onmessage_messages now data s herr hci, if_pos hmsg,
      recordMessage_of_ne_welcome initialState now data s hw]
  · intro h
    show jsOr data.type _ = data.type
    unfold jsOr
    rw [if_pos h]
  · intro h
    show jsOr data.type _ = _
    rw [h]
    rfl

/-- A concrete instance of C3: an untyped payload arriving on a transcript of one turn. -/
theorem onmessage_appends_agent_turn_witness :
    ∃ t : Turn,
      (onmessage "10:00" (some { message := .str "Hello" })
          { initialState with
            messages := [⟨"user", .str "John", "09:59", .str "text"⟩] }).messages
        = [⟨"user", .str "John", "09:59", .str "text"⟩] ++ [t] ∧
      t.sender = "agent" ∧ t.message = .str "Hello" ∧ t.timestamp = "10:00" ∧
      t.type = jsOr JsVal.undefined (.str "text") ∧
      (truthy JsVal.undefined = true → t.type = JsVal.undefined) ∧
      (JsVal.undefined = JsVal.undefined → t.type = .str "text") :=
  onmessage_appends_agent_turn "10:00" { message := .str "Hello" }
    { initialState with messages := [⟨"user", .str "John", "09:59", .str "text"⟩] }
    (by decide) (by decide) (by decide) (by decide)

/-- C5: a payload with a truthy error field raises exactly one error toast, whose text is the
error field, and changes nothing else: no turn is appended, the agent name, the participant
name and the speech output stay as they were, whatever other fields the payload carries. -/
theorem onmessage_error_surfaces_once (now : String) (data : Payload) (s : State)
    (herr : truthy data.error = true) :
    (onmessage now (some data) s).toasts = s.toasts ++ [Toast.error data.error] ∧
    (onmessage now (some data) s).messages = s.messages ∧
    (onmessage now (some data) s).agentName = s.agentName ∧
    (onmessage now (some data) s).participantName = s.participantName ∧
    (onmessage now (some data) s).initialMessageReceived = s.initialMessageReceived ∧
    (onmessage now (some data) s).speakLog = s.speakLog ∧
    (onmessage now (some data) s).sent = s.sent := by
  rw [onmessage_of_error now data s herr]
  exact ⟨rfl, rfl, rfl, rfl, rfl, rfl, rfl⟩

/-- A concrete instance of C5: an error payload that also carries a message, both names and a
type. -/
theorem onmessage_error_surfaces_once_witness :
    (onmessage "10:00"
        (some { error := .str "Session expired", type := .str "welcome",
                message := .str "Hi there", agent_name := .str "Ada",
                participant_name := .str "John" }) initialState).toasts
      = initialState.toasts ++ [Toast.error (.str "Session expired")] ∧
    (onmessage "10:00"
        (some { error := .str "Session expired", type := .str "welcome",
                message := .str "Hi there", agent_name := .str "Ada",
                participant_name := .str "John" }) initialState).messages
      = initialState.messages ∧
    (onmessage "10:00"
        (some { error := .str "Session expired", type := .str "welcome",
                message := .str "Hi there", agent_name := .str "Ada",
                participant_name := .str "John" }) initialState).agentName
      = initialState.agentName ∧
    (onmessage "10:00"
        (some { error := .str "Session expired", type := .str "welcome",
                message := .str "Hi there", agent_name := .str "Ada",
                participant_name := .str "John" }) initialState).participantName
      = initialState.participantName ∧
    (onmessage "10:00"
        (some { error := .str "Session expired", type := .str "welcome",
                message := .str "Hi there", agent_name := .str "Ada",
                participant_name := .str "John" }) initialState).initialMessageReceived
      = initialState.initialMessageReceived ∧
    (onmessage "10:00"
        (some { error := .str "Session expired", type := .str "welcome",
                message := .str "Hi there", agent_name := .str "Ada",
                participant_name := .str "John" }) initialState).speakLog
      = initialState.speakLog ∧
    (onmessage "10:00"
        (some { error := .str "Session expired", type := .str "welcome",
                message := .str "Hi there", agent_name := .str "Ada",
                participant_name := .str "John" }) initialState).sent
      = initialState.sent :=
  onmessage_error_surfaces_once "10:00"
    { error := .str "Session expired", type := .str "welcome", message := .str "Hi there",
      agent_name := .str "Ada", participant_name := .str "John" } initialState (by decide)

/-- C6: a connection_info payload without a truthy error sets the agent name and the
participant name from its fields whenever they are truthy (and keeps the old name otherwise),
leaves the transcript unchanged and hands nothing to speech output, also when it carries a
message. -/
theorem onmessage_connection_info_names (now : String) (data : Payload) (s : State)
    (herr : truthy data.error = false) (hci : data.type = .str "connection_info") :
    (truthy data.agent_name = true →
      (onmessage now (some data) s).agentName = data.agent_name) ∧
    (truthy data.participant_name = true →
      (onmessage now (some data) s).participantName = data.participant_name) ∧
    (truthy data.agent_name = false →
      (onmessage now (some data) s).agentName = s.agentName) ∧
    (truthy data.participant_name = false →
      (onmessage now (some data) s).participantName = s.participantName) ∧
    (onmessage now (some data) s).messages = s.messages ∧
    (onmessage now (some data) s).initialMessageReceived = s.initialMessageReceived ∧
    (onmessage now (some data) s).speakLog = s.speakLog ∧
    (onmessage now (some data) s).synthQueue = s.synthQueue ∧
    (onmessage now (some data) s).toasts = s.toasts := by
  rw [onmessage_of_connection_info now data s herr hci]
  refine ⟨?_, ?_, ?_, ?_, rfl, rfl, rfl, rfl, rfl⟩
  · intro h; exact if_pos h
  · intro h; exact if_pos h
  · intro h; show (if truthy data.agent_name = true then _ else _) = _; rw [h]; rfl
  · intro h; show (if truthy data.participant_name = true then _ else _) = _; rw [h]; rfl

/-- A concrete instance of C6: a connection_info payload that carries both names and a
message. -/
theorem onmessage_connection_info_names_witness :
    (onmessage "10:00"
        (some { type := .str "connection_info", message := .str "ignored",
                agent_name := .str "Ada", participant_name := .str "John" })
        initialState).agentName = .str "Ada" ∧
    (onmessage "10:00"
        (some { type := .str "connection_info", message := .str "ignored",
                agent_name := .str "Ada", participant_name := .str "John" })
        initialState).messages = [] ∧
    (onmessage "10:00"
        (some { type := .str "connection_info", message := .str "ignored",
                agent_name := .str "Ada", participant_name := .str "John" })
        initialState).speakLog = [] :=
  have h := onmessage_connection_info_names "10:00"
    { type := .str "connection_info", message := .str "ignored",
      agent_name := .str "Ada", participant_name := .str "John" } initialState
    (by decide) (by decide)
  ⟨h.1 (by decide), h.2.2.2.2.1, h.2.2.2.2.2.2.1⟩

/-- C7, evaluated where it fails: with a send pending, an error-flagged payload and a
connection_info payload both leave the busy indicator set, whereas a malformed payload and a
message payload clear it. -/
theorem onmessage_early_return_keeps_loading :
    (onmessage "10:00" (some { error := .str "Agent unavailable" })
        { initialState with connected := true, loading := true }).loading = true ∧
    (onmessage "10:00" (some { type := .str "connection_info", agent_name := .str "Ada" })
        { initialState with connected := true, loading := true }).loading = true ∧
    (onmessage "10:00" none
        { initialState with connected := true, loading := true }).loading = false ∧
    (onmessage "10:00" (some { message := .str "Hello" })
        { initialState with connected := true, loading := true }).loading = false := by
  decide

/-! ## Outbound sends -/

/-- C8: for a message whose trimmed text is non-empty and for every type (text and voice in
particular), `sendMessage` called while connected, with no send pending and the socket open,
appends exactly one participant turn at the end of the transcript, sets the busy indicator,
clears the input field and transmits exactly one payload, whose message and type are those
of the appended turn. -/
theorem sendMessage_appends_and_transmits (now message type : String) (s : State)
    (hm : jsTrim message ≠ "") (hc : s.connected = true) (hl : s.loading = false)
    (hws : s.wsReadyState = some WebSocket.OPEN) :
    (sendMessage now message type s).messages =
      s.messages ++ [⟨"user", .str message, now, .str type⟩] ∧
    (sendMessage now message type s).loading = true ∧
    (sendMessage now message type s).currentMessage = "" ∧
    (sendMessage now message type s).sent = s.sent ++ [⟨message, type⟩] := by
  have hg : ¬ (jsTrim message = "" ∨ s.loading = true ∨ s.connected = false) := by
    simp [hm, hc, hl]
  rw [sendMessage_of_not_guard now message type s hg]
  refine ⟨rfl, rfl, rfl, ?_⟩
  show (if s.wsReadyState = some WebSocket.OPEN then _ else _) = _
  rw [if_pos hws]

/-- A concrete instance of C8, the scenario of the specification: after the welcome, the user
sends John as text. -/
theorem sendMessage_appends_and_transmits_witness :
    (sendMessage "10:01" "John" "text"
        { initialState with
          connected := true, wsReadyState := some WebSocket.OPEN, currentMessage := "John"
          initialMessageReceived := true
          messages := [⟨"agent", .str "Hi there", "10:00", .str "welcome"⟩] }).messages
      = [⟨"agent", .str "Hi there", "10:00", .str "welcome"⟩]
          ++ [⟨"user", .str "John", "10:01", .str "text"⟩] ∧
    (sendMessage "10:01" "John" "text"
        { initialState with
          connected := true, wsReadyState := some WebSocket.OPEN, currentMessage := "John"
          initialMessageReceived := true
          messages := [⟨"agent", .str "Hi there", "10:00", .str "welcome"⟩] }).loading
      = true ∧
    (sendMessage "10:01" "John" "text"
        { initialState with
          connected := true, wsReadyState := some WebSocket.OPEN, currentMessage := "John"
          initialMessageReceived := true
          messages := [⟨"agent", .str "Hi there", "10:00", .str "welcome"⟩] }).currentMessage
      = "" ∧
    (sendMessage "10:01" "John" "text"
        { initialState with
          connected := true, wsReadyState := some WebSocket.OPEN, currentMessage := "John"
          initialMessageReceived := true
          messages := [⟨"agent", .str "Hi there", "10:00", .str "welcome"⟩] }).sent
      = [] ++ [⟨"John", "text"⟩] :=
  sendMessage_appends_and_transmits "10:01" "John" "text"
    { initialState with
      connected := true, wsReadyState := some WebSocket.OPEN, currentMessage := "John"
      initialMessageReceived := true
      messages := [⟨"agent", .str "Hi there", "10:00", .str "welcome"⟩] }
    (by decide) rfl rfl rfl

/-- C9: `sendMessage` is a no-op (transcript, busy indicator, input field and the payloads
transmitted all as before) if and only if the message is empty or made of white space only,
or a send is pending, or the connected flag is false. -/
theorem sendMessage_noop_iff (now message type : String) (s : State) :
    ((sendMessage now message type s).messages = s.messages ∧
      (sendMessage now message type s).loading = s.loading ∧
      (sendMessage now message type s).currentMessage = s.currentMessage ∧
      (sendMessage now message type s).sent = s.sent)
    ↔ ((∀ c ∈ message.data, isJsWhiteSpace c = true) ∨ s.loading = true ∨
        s.connected = false) := by
  rw [← jsTrim_eq_empty_iff]
  constructor
  · intro h
    by_contra hg
    rw [sendMessage_of_not_guard now message type s hg] at h
    have h1 : s.messages ++ [⟨"user", .str message, now, .str type⟩] = s.messages := h.1
    have := congrArg List.length h1
    simp at this
  · intro hg
    rw [sendMessage_of_guard now message type s hg]
    exact ⟨rfl, rfl, rfl, rfl⟩

/-- C10, evaluated where it fails: with the connection open and no send pending, a final
speech result with the transcript hello there records no turn, transmits nothing and leaves
the busy indicator clear, the text only landing in the input field, whereas a text
submission of the same text records the turn, transmits the payload and sets the busy
indicator. -/
theorem final_result_records_and_sends_nothing :
    (onresult "10:00" ⟨0, [⟨"hello there", true⟩]⟩
        { initialState with connected := true, wsReadyState := some WebSocket.OPEN }).messages
      = [] ∧
    (onresult "10:00" ⟨0, [⟨"hello there", true⟩]⟩
        { initialState with connected := true, wsReadyState := some WebSocket.OPEN }).sent
      = [] ∧
    (onresult "10:00" ⟨0, [⟨"hello there", true⟩]⟩
        { initialState with connected := true, wsReadyState := some WebSocket.OPEN }).loading
      = false ∧
    (onresult "10:00" ⟨0, [⟨"hello there", true⟩]⟩
        { initialState with
          connected := true, wsReadyState := some WebSocket.OPEN }).currentMessage
      = "hello there" ∧
    (handleSubmit "10:00"
        { initialState with
          connected := true, wsReadyState := some WebSocket.OPEN
          currentMessage := "hello there" }).messages
      = [⟨"user", .str "hello there", "10:00", .str "text"⟩] ∧
    (handleSubmit "10:00"
        { initialState with
          connected := true, wsReadyState := some WebSocket.OPEN
          currentMessage := "hello there" }).sent
      = [⟨"hello there", "text"⟩] ∧
    (handleSubmit "10:00"
        { initialState with
          connected := true, wsReadyState := some WebSocket.OPEN
          currentMessage := "hello there" }).loading
      = true := by
  decide

/-- Whatever the state and the results, `recognition.onresult` appends no turn, transmits
nothing and leaves the busy indicator as it was. -/
theorem onresult_records_nothing (now : String) (event : SpeechResultEvent) (s : State) :
    (onresult now event s).messages = s.messages ∧
    (onresult now event s).sent = s.sent ∧
    (onresult now event s).loading = s.loading := by
  rw [onresult_eq]
  split <;> exact ⟨rfl, rfl, rfl⟩

/-! ## The first welcome -/

/-- C4 as stated fails: a participant turn recorded before the first welcome is gone once the
welcome has been handled. -/
theorem first_welcome_discards_participant_turn :
    ({ initialState with
        connected := true
        messages := [⟨"user", .str "John", "09:59", .str "text"⟩] } : State).initialMessageReceived
      = false ∧
    (onmessage "10:00" (some { type := .str "welcome", message := .str "Hi there" })
        { initialState with
          connected := true
          messages := [⟨"user", .str "John", "09:59", .str "text"⟩] }).messages
      = [⟨"agent", .str "Hi there", "10:00", .str "welcome"⟩] ∧
    (⟨"user", .str "John", "09:59", .str "text"⟩ : Turn) ∉
      (onmessage "10:00" (some { type := .str "welcome", message := .str "Hi there" })
        { initialState with
          connected := true
          messages := [⟨"user", .str "John", "09:59", .str "text"⟩] }).messages := by
  decide

/-- C4, amended: when the first welcome payload arrives (no welcome recorded yet), the
transcript is replaced by the single welcome turn whatever it held, and the welcome is
recorded. -/
theorem first_welcome_replaces_transcript (now : String) (data : Payload) (s : State)
    (herr : truthy data.error = false) (hty : data.type = .str "welcome")
    (hmsg : truthy data.message = true) (hr : s.initialMessageReceived = false) :
    (onmessage now (some data) s).messages = [⟨"agent", data.message, now, .str "welcome"⟩] ∧
    (onmessage now (some data) s).initialMessageReceived = true := by
  have _ := hr
  exact onmessage_welcome now data s ((isWelcome_iff data).mpr ⟨herr, hty, hmsg⟩)

/-- A concrete instance of the amended C4: the welcome arrives on a transcript that holds a
participant turn and an agent turn. -/
theorem first_welcome_replaces_transcript_witness :
    (onmessage "10:00" (some { type := .str "welcome", message := .str "Hi there" })
        { initialState with
          connected := true
          messages := [⟨"user", .str "John", "09:58", .str "text"⟩,
            ⟨"agent", .str "Hello John", "09:59", .str "text"⟩] }).messages
      = [⟨"agent", .str "Hi there", "10:00", .str "welcome"⟩] ∧
    (onmessage "10:00" (some { type := .str "welcome", message := .str "Hi there" })
        { initialState with
          connected := true
          messages := [⟨"user", .str "John", "09:58", .str "text"⟩,
            ⟨"agent", .str "Hello John", "09:59", .str "text"⟩] }).initialMessageReceived
      = true :=
  first_welcome_replaces_transcript "10:00"
    { type := .str "welcome", message := .str "Hi there" }
    { initialState with
      connected := true
      messages := [⟨"user", .str "John", "09:58", .str "text"⟩,
        ⟨"agent", .str "Hello John", "09:59", .str "text"⟩] }
    (by decide) (by decide) (by decide) (by decide)

/-- C1, evaluated where it fails: a welcome, a send by the user and a second welcome.  The
second welcome is handled like the first one and replaces the transcript: the turn at index 0
then carries the text of the second welcome payload, not of the first, the turn of the
participant is gone, and a welcome turn has been inserted twice. -/
theorem second_welcome_takes_index_zero :
    (run { initialState with connected := true, wsReadyState := some WebSocket.OPEN }
        [.inbound "10:00" (some { type := .str "welcome", message := .str "Hi there" })]).messages
      = [⟨"agent", .str "Hi there", "10:00", .str "welcome"⟩] ∧
    (run { initialState with connected := true, wsReadyState := some WebSocket.OPEN }
        [.inbound "10:00" (some { type := .str "welcome", message := .str "Hi there" }),
          .send "10:01" "John" "text"]).messages
      = [⟨"agent", .str "Hi there", "10:00", .str "welcome"⟩,
          ⟨"user", .str "John", "10:01", .str "text"⟩] ∧
    (run { initialState with connected := true, wsReadyState := some WebSocket.OPEN }
        [.inbound "10:00" (some { type := .str "welcome", message := .str "Hi there" }),
          .send "10:01" "John" "text",
          .inbound "10:02"
            (some { type := .str "welcome",
                    message := .str "Hello again" })]).initialMessageReceived
      = true ∧
    (run { initialState with connected := true, wsReadyState := some WebSocket.OPEN }
        [.inbound "10:00" (some { type := .str "welcome", message := .str "Hi there" }),
          .send "10:01" "John" "text",
          .inbound "10:02"
            (some { type := .str "welcome", message := .str "Hello again" })]).messages
      = [⟨"agent", .str "Hello again", "10:02", .str "welcome"⟩] := by
  decide

/-- The scenario of the specification, run on the code: the welcome arrives first, then the
user sends John as text. -/
theorem scenario_welcome_then_send :
    (run { initialState with connected := true, wsReadyState := some WebSocket.OPEN }
        [.inbound "10:00" (some { type := .str "welcome", message := .str "Hi there" }),
          .send "10:01" "John" "text"]).messages
      = [⟨"agent", .str "Hi there", "10:00", .str "welcome"⟩,
          ⟨"user", .str "John", "10:01", .str "text"⟩] ∧
    (run { initialState with connected := true, wsReadyState := some WebSocket.OPEN }
        [.inbound "10:00" (some { type := .str "welcome", message := .str "Hi there" }),
          .send "10:01" "John" "text"]).sent = [⟨"John", "text"⟩] := by
  decide

/-! ## Sequences of inbound payloads -/

/-- C2, evaluated where it fails: of two welcome payloads that both carry a message, the
second, arriving after the first has been recorded, is neither appended nor dropped: it
replaces the transcript, and with it the turn of the first welcome and the turn of an
ordinary message that arrived in between. -/
theorem second_welcome_replaces_transcript :
    (run { initialState with connected := true, wsReadyState := some WebSocket.OPEN }
        (inboundEvents
          [("10:00", some { type := .str "welcome", message := .str "Hi there" }),
            ("10:01", some { type := .str "welcome", message := .str "Hello again" })])).messages
      = [⟨"agent", .str "Hello again", "10:01", .str "welcome"⟩] ∧
    (run { initialState with connected := true, wsReadyState := some WebSocket.OPEN }
        (inboundEvents
          [("10:00", some { type := .str "welcome", message := .str "Hi there" }),
            ("10:01", some { message := .str "What is your name?" }),
            ("10:02", some { type := .str "welcome", message := .str "Hello again" })])).messages
      = [⟨"agent", .str "Hello again", "10:02", .str "welcome"⟩] := by
  decide

/-- What the code does with a sequence of inbound payloads: as long as no welcome payload has
arrived the transcript grows by one agent turn per ordinary payload, in arrival order, and
every welcome payload, the first and the later ones alike, makes its turn the whole
transcript. -/
theorem run_inbound (ps : List (String × Option Payload)) (s0 : State) :
    ((∀ q ∈ ps, isWelcomeInbound q = false) →
      (run s0 (inboundEvents ps)).messages = s0.messages ++ ps.filterMap ordinaryTurn) ∧
    (∀ pre now data post, ps = pre ++ (now, some data) :: post →
      isWelcome data = true → (∀ q ∈ post, isWelcomeInbound q = false) →
      (run s0 (inboundEvents ps)).messages =
        ⟨"agent", data.message, now, .str "welcome"⟩ :: post.filterMap ordinaryTurn) := by
  have key : ∀ (l : List (String × Option Payload)) (s : State),
      (∀ q ∈ l, isWelcomeInbound q = false) →
      (run s (inboundEvents l)).messages = s.messages ++ l.filterMap ordinaryTurn := by
    intro l
    induction l with
    | nil => intro s _; simp [inboundEvents, run]
    | cons q l ih =>
      intro s h
      obtain ⟨now, parsed⟩ := q
      have hm := (onmessage_otherwise now parsed s (h _ (List.mem_cons_self _ _))).1
      have hstep : run s (inboundEvents ((now, parsed) :: l)) =
          run (onmessage now parsed s) (inboundEvents l) := rfl
      rw [hstep, ih _ (fun q hq => h q (List.mem_cons_of_mem _ hq)), hm, List.append_assoc]
      congr 1
      cases hq : ordinaryTurn (now, parsed) <;> simp [List.filterMap_cons, hq]
  refine ⟨key ps s0, ?_⟩
  intro pre now data post hps hw hpost
  have hsplit : inboundEvents ps =
      inboundEvents pre ++ Event.inbound now (some data) :: inboundEvents post := by
    rw [hps]
    simp [inboundEvents]
  rw [hsplit, run_append, run_cons]
  show (run (onmessage now (some data) (run s0 (inboundEvents pre)))
    (inboundEvents post)).messages = _
  rw [key post _ hpost, (onmessage_welcome now data _ hw).1]
  rfl

/-! ## Speech results and errors, closure of the socket -/

theorem mem_foldl_final (c : Char) (l : List SpeechResult) :
    ∀ acc : String,
      c ∈ (l.foldl (fun acc r => if r.isFinal then acc ++ r.transcript else acc) acc).data ↔
        c ∈ acc.data ∨ ∃ r ∈ l, r.isFinal = true ∧ c ∈ r.transcript.data := by
  induction l with
  | nil => intro acc; simp
  | cons r l ih =>
    intro acc
    rw [List.foldl_cons, ih]
    cases hf : r.isFinal <;> simp [hf, String.data_append, or_assoc]

theorem mem_finalTranscript (c : Char) (event : SpeechResultEvent) :
    c ∈ (finalTranscript event).data ↔
      ∃ r ∈ event.results.drop event.resultIndex, r.isFinal = true ∧ c ∈ r.transcript.data := by
  unfold finalTranscript
  rw [mem_foldl_final]
  simp

/-- C11: when no result from `resultIndex` on is final, `recognition.onresult` changes nothing
(nothing is transmitted; transcript and busy indicator stay as they were); and whenever it
transmits, appends a turn or sets the busy indicator, some final result from `resultIndex` on
holds a character that is not white space, that is, the concatenation of the final results is
not blank. -/
theorem onresult_sends_only_final (now : String) (event : SpeechResultEvent) (s : State) :
    ((∀ r ∈ event.results.drop event.resultIndex, r.isFinal = false) →
      onresult now event s = s) ∧
    (((onresult now event s).sent ≠ s.sent ∨ (onresult now event s).messages ≠ s.messages ∨
        (onresult now event s).loading ≠ s.loading) →
      ∃ r ∈ event.results.drop event.resultIndex,
        r.isFinal = true ∧ ∃ c ∈ r.transcript.data, isJsWhiteSpace c = false) := by
  have hblank : jsTrim (finalTranscript event) = "" → onresult now event s = s := by
    intro h
    rw [onresult_eq, if_neg (not_not.mpr h)]
  constructor
  · intro h
    apply hblank
    rw [jsTrim_eq_empty_iff]
    intro c hc
    obtain ⟨r, hr, hfin, _⟩ := (mem_finalTranscript c event).mp hc
    rw [h r hr] at hfin
    exact absurd hfin (by decide)
  · intro hchg
    by_contra hno
    have hb : jsTrim (finalTranscript event) = "" := by
      rw [jsTrim_eq_empty_iff]
      intro c hc
      obtain ⟨r, hr, hfin, hcr⟩ := (mem_finalTranscript c event).mp hc
      by_contra hws
      exact hno ⟨r, hr, hfin, c, hcr, by simpa using hws⟩
    rw [hblank hb] at hchg
    rcases hchg with h | h | h <;> exact h rfl

/-- C12: for every error kind `recognition.onerror` leaves capture idle (isRecording and
isListening false, mic level 0); it raises no toast for no-speech and aborted and exactly one
error toast for every other kind: a message of their own for not-allowed, network and
audio-capture, and for any other kind the generic message that names the kind. -/
theorem onerror_classifies (error : String) (s : State) :
    (onerror error s).isRecording = false ∧
    (onerror error s).isListening = false ∧
    (onerror error s).micLevel = 0 ∧
    ((onerror error s).toasts ≠ s.toasts ↔ (error ≠ "no-speech" ∧ error ≠ "aborted")) ∧
    ((error = "no-speech" ∨ error = "aborted") → (onerror error s).toasts = s.toasts) ∧
    (error = "not-allowed" →
      (onerror error s).toasts = s.toasts ++ [Toast.error (.str
        "Microphone access denied. Please enable microphone permissions and try again.")]) ∧
    (error = "network" →
      (onerror error s).toasts = s.toasts ++ [Toast.error (.str
        "Network error occurred. Please check your internet connection.")]) ∧
    (error = "audio-capture" →
      (onerror error s).toasts = s.toasts ++ [Toast.error (.str
        "No microphone found. Please check your microphone connection.")]) ∧
    ((error ≠ "no-speech" ∧ error ≠ "aborted" ∧ error ≠ "not-allowed" ∧ error ≠ "network" ∧
        error ≠ "audio-capture") →
      (onerror error s).toasts = s.toasts ++ [Toast.error (.str
        ("Speech recognition error: " ++ error ++ ". Please try again."))]) := by
  have hgrow : ∀ (l : List Toast) (t : Toast), l ++ [t] ≠ l := by
    intro l t h
    have := congrArg List.length h
    simp at this
  unfold onerror stopMicLevelMonitoring
  by_cases h1 : error = "aborted"
  · subst h1
    simp
  by_cases h2 : error = "no-speech"
  · subst h2
    simp
  by_cases h3 : error = "not-allowed"
  · subst h3
    simp [hgrow]
  by_cases h4 : error = "network"
  · subst h4
    simp [hgrow]
  by_cases h5 : error = "audio-capture"
  · subst h5
    simp [hgrow]
  simp [h1, h2, h3, h4, h5, hgrow]

/-- C13: for every close code `ws.onclose` sets connected to false and creates no socket (no
reconnect); it raises the connection-lost error toast when the code differs from 1000 and no
toast when the code is 1000. -/
theorem onclose_closes (code : Nat) (s : State) :
    (onclose code s).connected = false ∧
    (onclose code s).socketsCreated = s.socketsCreated ∧
    (onclose code s).wsReadyState = s.wsReadyState ∧
    (onclose code s).messages = s.messages ∧
    (onclose code s).sent = s.sent ∧
    (code ≠ 1000 →
      (onclose code s).toasts =
        s.toasts ++ [Toast.error (.str "Connection lost. Please refresh the page.")]) ∧
    (code = 1000 → (onclose code s).toasts = s.toasts) ∧
    (Toast.error (.str "Connection lost. Please refresh the page.") ∈
        (onclose code s).toasts.drop s.toasts.length ↔ code ≠ 1000) := by
  unfold onclose
  by_cases h : code = 1000
  · subst h
    simp
  · simp [h]

/-- The scenarios of the specification for C12 and C13, run on the code: no-speech raises no
toast and leaves capture idle; close code 1006 raises the connection-lost toast. -/
theorem scenario_no_speech_and_abnormal_close :
    (onerror "no-speech"
        { initialState with isRecording := true, isListening := true, micLevel := 40 }).toasts
      = [] ∧
    (onerror "no-speech"
        { initialState with isRecording := true, isListening := true, micLevel := 40 }).isListening
      = false ∧
    (onclose 1006 { initialState with connected := true }).connected = false ∧
    (onclose 1006 { initialState with connected := true }).toasts
      = [Toast.error (.str "Connection lost. Please refresh the page.")] ∧
    (onclose 1006 { initialState with connected := true }).socketsCreated = 0 := by
  decide

/-! ## The summary: duration, counts, preview -/

theorem roundHalfEven_intCast (z : Int) : roundHalfEven (z : ℚ) = z := by
  unfold roundHalfEven
  rw [Int.floor_intCast]
  simp

theorem abs_roundHalfEven_sub_le (q : ℚ) : |(roundHalfEven q : ℚ) - q| ≤ 1 / 2 := by
  unfold roundHalfEven
  have h1 := Int.floor_le q
  have h2 := Int.lt_floor_add_one q
  split_ifs <;> push_cast <;> rw [abs_le] <;> constructor <;> linarith

theorem log_abs_eq (q : ℚ) (e : Int) (h1 : (2 : ℚ) ^ e ≤ |q|) (h2 : |q| < (2 : ℚ) ^ (e + 1)) :
    Int.log 2 |q| = e := by
  have hpos : (0 : ℚ) < |q| := lt_of_lt_of_le (zpow_pos (by norm_num) e) h1
  have a1 : e ≤ Int.log 2 |q| :=
    (Int.zpow_le_iff_le_log (by norm_num) hpos).mp (by simpa using h1)
  have a2 : Int.log 2 |q| < e + 1 :=
    (Int.lt_zpow_iff_log_lt (by norm_num) hpos).mp (by simpa using h2)
  omega

/-- A number between 2 ^ (e + 52) and 2 ^ (e + 53) is rounded to a multiple of 2 ^ e. -/
theorem toDouble_of_exponent (q : ℚ) (e : Int) (h1 : (2 : ℚ) ^ (e + 52) ≤ |q|)
    (h2 : |q| < (2 : ℚ) ^ (e + 52 + 1)) :
    toDouble q = (roundHalfEven (q / 2 ^ e) : ℚ) * 2 ^ e := by
  have hpos : (0 : ℚ) < |q| := lt_of_lt_of_le (zpow_pos (by norm_num) _) h1
  have hq : q ≠ 0 := abs_pos.mp hpos
  unfold toDouble
  rw [if_neg hq, log_abs_eq q (e + 52) h1 h2]
  simp

/-- A number with a significand of at most 53 bits is a double: rounding leaves it as it
is. -/
theorem toDouble_exact (m t : Int) (hm : |m| < 2 ^ 53) :
    toDouble ((m : ℚ) * 2 ^ t) = (m : ℚ) * 2 ^ t := by
  by_cases h0 : m = 0
  · subst h0
    simp [toDouble]
  have hq : (m : ℚ) * 2 ^ t ≠ 0 :=
    mul_ne_zero (by exact_mod_cast h0) (zpow_ne_zero _ (by norm_num))
  have hpos : (0 : ℚ) < |(m : ℚ) * 2 ^ t| := abs_pos.mpr hq
  have hlt : |(m : ℚ) * 2 ^ t| < ((2 : ℕ) : ℚ) ^ (t + 53) := by
    rw [abs_mul, abs_of_pos (zpow_pos (by norm_num : (0 : ℚ) < 2) t), zpow_add₀ (by norm_num),
      mul_comm]
    apply mul_lt_mul_of_pos_left _ (zpow_pos (by norm_num) t)
    exact_mod_cast hm
  have hlog : Int.log 2 |(m : ℚ) * 2 ^ t| < t + 53 :=
    (Int.lt_zpow_iff_log_lt (by norm_num) hpos).mp hlt
  unfold toDouble
  rw [if_neg hq]
  generalize Int.log 2 |(m : ℚ) * 2 ^ t| = L at hlog
  obtain ⟨k, hk⟩ : ∃ k : ℕ, t = L - 52 + k := ⟨(t - (L - 52)).toNat, by omega⟩
  have hdiv : (m : ℚ) * 2 ^ t / 2 ^ (L - 52) = ((m * 2 ^ k : Int) : ℚ) := by
    rw [hk, zpow_add₀ (by norm_num), zpow_natCast]
    push_cast
    field_simp
    ring
  rw [hdiv, roundHalfEven_intCast, hk, zpow_add₀ (by norm_num), zpow_natCast]
  push_cast
  ring

theorem toDouble_intCast (z : Int) (hz : |z| < 2 ^ 53) : toDouble (z : ℚ) = z := by
  have h := toDouble_exact z 0 hz
  simpa using h

/-- Rounding to a double changes a positive number by at most 2 ^ (-53) of it. -/
theorem abs_toDouble_sub_le (q : ℚ) (hq : 0 < q) : |toDouble q - q| ≤ q / 2 ^ 53 := by
  have hL : (2 : ℚ) ^ Int.log 2 |q| ≤ q := by
    have := Int.zpow_log_le_self (b := 2) (by norm_num) (abs_pos.mpr hq.ne')
    rw [abs_of_pos hq] at this ⊢
    simpa using this
  unfold toDouble
  rw [if_neg hq.ne']
  generalize Int.log 2 |q| = L at hL
  have hE : (0 : ℚ) < 2 ^ (L - 52) := zpow_pos (by norm_num) _
  have hsplit : (2 : ℚ) ^ L = 2 ^ (L - 52) * 2 ^ 52 := by
    rw [← zpow_natCast, ← zpow_add₀ (by norm_num)]
    congr 1
    simp
  have hr := abs_roundHalfEven_sub_le (q / 2 ^ (L - 52))
  have heq : (roundHalfEven (q / 2 ^ (L - 52)) : ℚ) * 2 ^ (L - 52) - q =
      ((roundHalfEven (q / 2 ^ (L - 52)) : ℚ) - q / 2 ^ (L - 52)) * 2 ^ (L - 52) := by
    field_simp
  rw [heq, abs_mul, abs_of_pos hE]
  have h3 : |(roundHalfEven (q / 2 ^ (L - 52)) : ℚ) - q / 2 ^ (L - 52)| * 2 ^ (L - 52) ≤
      1 / 2 * 2 ^ (L - 52) := mul_le_mul_of_nonneg_right hr hE.le
  have h4 : (1 : ℚ) / 2 * 2 ^ (L - 52) ≤ q / 2 ^ 53 := by
    rw [hsplit] at hL
    rw [le_div_iff₀ (by norm_num)]
    norm_num at hL ⊢
    linarith
  exact h3.trans h4

/-- For a time difference of less than 2 ^ 52 ms the computed duration is the whole number of
minutes nearest to it, halves going up: the two divisions change the quotient by less than
the distance that separates it from the next half, and a quotient that is a half is computed
exactly. -/
theorem durationMinutes_spec (start endTime : Int) (h0 : start ≤ endTime)
    (h1 : endTime - start < 2 ^ 52) :
    60000 * durationMinutes (some start) endTime - 30000 ≤ endTime - start ∧
    endTime - start < 60000 * durationMinutes (some start) endTime + 30000 := by
  simp only [durationMinutes]
  have hd0 : 0 ≤ endTime - start := by omega
  generalize endTime - start = d at hd0 h1 ⊢
  rw [toDouble_intCast d (by rw [abs_of_nonneg hd0]; omega)]
  by_cases htie : (d + 30000) % 60000 = 0
  · obtain ⟨N, hN⟩ : ∃ N : Int, d = 60000 * N - 30000 := ⟨(d + 30000) / 60000, by omega⟩
    have e1 : (d : ℚ) / 1000 = ((60 * N - 30 : Int) : ℚ) := by
      rw [hN]; push_cast; ring
    have e2 : ((60 * N - 30 : Int) : ℚ) / 60 = ((2 * N - 1 : Int) : ℚ) * 2 ^ (-1 : Int) := by
      push_cast
      rw [zpow_neg_one]
      ring
    rw [e1, toDouble_intCast _ (by rw [abs_of_nonneg (by omega)]; omega), e2,
      toDouble_exact _ _ (by rw [abs_of_nonneg (by omega)]; omega)]
    have e3 : ((2 * N - 1 : Int) : ℚ) * 2 ^ (-1 : Int) + 1 / 2 = (N : ℚ) := by
      push_cast
      rw [zpow_neg_one]
      ring
    unfold mathRound
    rw [e3, Int.floor_intCast]
    omega
  · by_cases hz : d = 0
    · subst hz
      have hf : ⌊(2 : ℚ)⁻¹⌋ = 0 := by
        rw [Int.floor_eq_iff]
        constructor <;> norm_num
      simp [toDouble, mathRound, hf]
    have hdpos : (0 : ℚ) < (d : ℚ) := by exact_mod_cast (by omega : 0 < d)
    have hdle : (d : ℚ) ≤ 2 ^ 52 - 1 := by exact_mod_cast (by omega : d ≤ 2 ^ 52 - 1)
    have hy : (0 : ℚ) < (d : ℚ) / 1000 := by positivity
    have ha := abs_le.mp (abs_toDouble_sub_le _ hy)
    have hapos : (0 : ℚ) < toDouble ((d : ℚ) / 1000) / 60 := by
      have : (0 : ℚ) < toDouble ((d : ℚ) / 1000) := by
        norm_num at ha
        linarith
      positivity
    have hb := abs_le.mp (abs_toDouble_sub_le _ hapos)
    generalize toDouble ((d : ℚ) / 1000) = a at ha hapos hb
    generalize toDouble (a / 60) = b at hb
    unfold mathRound
    have f1 := Int.floor_le (b + 1 / 2)
    have f2 := Int.lt_floor_add_one (b + 1 / 2)
    generalize ⌊b + 1 / 2⌋ = n at f1 f2
    norm_num at ha hb hdle
    have g1 : ((60000 * n - 30000 : Int) : ℚ) < ((d + 1 : Int) : ℚ) := by
      push_cast
      linarith
    have g2 : ((d : Int) : ℚ) < ((60000 * n + 30000 + 1 : Int) : ℚ) := by
      push_cast
      linarith
    have g3 : 60000 * n - 30000 < d + 1 := by exact_mod_cast g1
    have g4 : d < 60000 * n + 30000 + 1 := by exact_mod_cast g2
    omega

theorem roundHalfEven_of_tie_above_odd :
    roundHalfEven ((17279999999969999 : ℚ) / 2) = 8639999999985000 := by
  have hf : ⌊(17279999999969999 : ℚ) / 2⌋ = 8639999999984999 := by
    rw [Int.floor_eq_iff]
    constructor <;> norm_num
  unfold roundHalfEven
  rw [hf]
  norm_num

/-- The duration between the earliest time of a `Date` and a time 30001 ms short of the
latest one: the difference, 17279999999969999 ms, lies above 2 ^ 53 and is rounded to the
double 17279999999970000, whose quotient is a whole number of minutes and a half. -/
theorem durationMinutes_at_extremes :
    durationMinutes (some (-8640000000000000)) 8639999999969999 = 288000000000 := by
  simp only [durationMinutes]
  have e0 : ((8639999999969999 - (-8640000000000000) : Int) : ℚ) = 17279999999969999 := by
    norm_num
  have e1 : toDouble (17279999999969999 : ℚ) = 17279999999970000 := by
    rw [toDouble_of_exponent _ 1 (by norm_num [abs_of_pos]) (by norm_num [abs_of_pos])]
    have : (17279999999969999 : ℚ) / 2 ^ (1 : Int) = 17279999999969999 / 2 := by norm_num
    rw [this, roundHalfEven_of_tie_above_odd]
    norm_num
  have e2 : (17279999999970000 : ℚ) / 1000 = ((17279999999970 : Int) : ℚ) := by norm_num
  have e3 : ((17279999999970 : Int) : ℚ) / 60 = ((575999999999 : Int) : ℚ) * 2 ^ (-1 : Int) := by
    norm_num
  rw [e0, e1, e2, toDouble_intCast _ (by norm_num), e3, toDouble_exact _ _ (by norm_num)]
  unfold mathRound
  rw [Int.floor_eq_iff]
  constructor <;> norm_num

theorem flowEntries_of_str (l : List Turn) (h : ∀ t ∈ l, t.message.isString = true) :
    flowEntries l =
      some (l.map (fun t => { sender := t.sender, preview := preview (jsToString t.message) })) := by
  induction l with
  | nil => rfl
  | cons t l ih =>
    have ht := h t (List.mem_cons_self _ _)
    have ih1 := ih (fun u hu => h u (List.mem_cons_of_mem _ hu))
    cases hx : t.message with
    | str x => simp only [flowEntries, flowEntry, hx, ih1, List.map_cons, jsToString]
    | undefined => rw [hx] at ht; exact absurd ht (by decide)
    | null => rw [hx] at ht; exact absurd ht (by decide)
    | bool b => rw [hx] at ht; exact absurd ht (by simp [JsVal.isString])
    | num n => rw [hx] at ht; exact absurd ht (by simp [JsVal.isString])
    | object => rw [hx] at ht; exact absurd ht (by decide)

/-- When the texts of the first three turns are strings, `generateConversationSummary` returns
this summary. -/
theorem generateConversationSummary_of_str (toLowerCase : String → String)
    (toLocaleString : Int → String) (endTime : Int) (s : State)
    (hstr : ∀ t ∈ s.messages.take 3, t.message.isString = true) :
    generateConversationSummary toLowerCase toLocaleString endTime s =
      some
        { participantName := s.participantName
          agentName := s.agentName
          duration := toString (durationMinutes s.conversationStartTime endTime) ++ " minutes"
          totalMessages := s.messages.length
          userMessages := (s.messages.filter (fun msg => msg.sender = "user")).length
          agentMessages := (s.messages.filter (fun msg => msg.sender = "agent")).length
          startTime := s.conversationStartTime.map toLocaleString
          endTime := toLocaleString endTime
          keyTopics :=
            extractKeyTopics toLowerCase (s.messages.filter (fun msg => msg.sender = "user"))
          conversationFlow :=
            (s.messages.take 3).map
              (fun t => { sender := t.sender, preview := preview (jsToString t.message) }) } := by
  unfold generateConversationSummary
  simp only [flowEntries_of_str _ hstr]

/-- C14 as stated fails: between the earliest time a `Date` can hold and a time 30001 ms short
of the latest one lie 17279999999969999 ms, whose nearest whole number of minutes is
287999999999; the code computes 288000000000, which is not within half a minute of the
difference, the subtraction having rounded the difference to a double. -/
theorem duration_beyond_double_precision :
    (-8640000000000000 : Int) ≤ 8639999999969999 ∧
    durationMinutes (some (-8640000000000000)) 8639999999969999 = 288000000000 ∧
    ¬ (60000 * durationMinutes (some (-8640000000000000)) 8639999999969999 - 30000 ≤
        8639999999969999 - (-8640000000000000)) ∧
    (60000 * 287999999999 - 30000 ≤ (8639999999969999 : Int) - (-8640000000000000) ∧
      (8639999999969999 : Int) - (-8640000000000000) < 60000 * 287999999999 + 30000) := by
  rw [durationMinutes_at_extremes]
  norm_num

/-- C14, amended: the duration of the summary is rendered as the number of minutes followed
by the word minutes; for an end time that is not earlier than the start time and less than
2 ^ 52 ms (some 142 000 years) later, that number is the non-negative whole number nearest to
(end - start) / 60000 ms, halves going up; it is 0 when end equals start and 0 when no start
time was recorded. -/
theorem summary_duration_rounds (toLowerCase : String → String)
    (toLocaleString : Int → String) (endTime : Int) (s : State)
    (hstr : ∀ t ∈ s.messages.take 3, t.message.isString = true) :
    ∃ sm, generateConversationSummary toLowerCase toLocaleString endTime s = some sm ∧
      sm.duration = toString (durationMinutes s.conversationStartTime endTime) ++ " minutes" ∧
      (∀ start, s.conversationStartTime = some start → start ≤ endTime →
        endTime - start < 2 ^ 52 →
        0 ≤ durationMinutes s.conversationStartTime endTime ∧
        60000 * durationMinutes s.conversationStartTime endTime - 30000 ≤ endTime - start ∧
        endTime - start < 60000 * durationMinutes s.conversationStartTime endTime + 30000) ∧
      (s.conversationStartTime = some endTime → sm.duration = "0 minutes") ∧
      (s.conversationStartTime = none → sm.duration = "0 minutes") := by
  refine ⟨_, generateConversationSummary_of_str toLowerCase toLocaleString endTime s hstr,
    rfl, ?_, ?_, ?_⟩
  · intro start hs hle hlt
    rw [hs]
    have h := durationMinutes_spec start endTime hle hlt
    refine ⟨?_, h.1, h.2⟩
    omega
  · intro hs
    have h := durationMinutes_spec endTime endTime (le_refl _) (by norm_num)
    have h0 : durationMinutes s.conversationStartTime endTime = 0 := by
      rw [hs]
      omega
    show toString (durationMinutes s.conversationStartTime endTime) ++ " minutes" = _
    rw [h0]
    rfl
  · intro hs
    show toString (durationMinutes s.conversationStartTime endTime) ++ " minutes" = _
    rw [hs]
    rfl

/-- A concrete instance of the amended C14: a session that started at time 0 and ends 90
seconds later, a minute and a half. -/
theorem summary_duration_rounds_witness :
    ∃ sm, generateConversationSummary asciiLowerCase toString 90000
        { initialState with conversationStartTime := some 0 } = some sm ∧
      sm.duration = toString (durationMinutes
        ({ initialState with conversationStartTime := some 0 } : State).conversationStartTime
        90000) ++ " minutes" ∧
      (∀ start,
        ({ initialState with conversationStartTime := some 0 } : State).conversationStartTime
          = some start → start ≤ 90000 → 90000 - start < 2 ^ 52 →
        0 ≤ durationMinutes
          ({ initialState with conversationStartTime := some 0 } : State).conversationStartTime
          90000 ∧
        60000 * durationMinutes
          ({ initialState with conversationStartTime := some 0 } : State).conversationStartTime
          90000 - 30000 ≤ 90000 - start ∧
        90000 - start < 60000 * durationMinutes
          ({ initialState with conversationStartTime := some 0 } : State).conversationStartTime
          90000 + 30000) ∧
      (({ initialState with conversationStartTime := some 0 } : State).conversationStartTime
          = some 90000 → sm.duration = "0 minutes") ∧
      (({ initialState with conversationStartTime := some 0 } : State).conversationStartTime
          = none → sm.duration = "0 minutes") :=
  summary_duration_rounds asciiLowerCase toString 90000
    { initialState with conversationStartTime := some 0 } (by decide)

/-- A minute and a half rounds up to two minutes, and 89 seconds round to one. -/
theorem duration_of_ninety_seconds :
    durationMinutes (some 0) 90000 = 2 ∧ durationMinutes (some 0) 89999 = 1 := by
  have h1 := durationMinutes_spec 0 90000 (by norm_num) (by norm_num)
  have h2 := durationMinutes_spec 0 89999 (by norm_num) (by norm_num)
  constructor <;> omega

theorem ordinaryTurn_sender (q : String × Option Payload) :
    ∀ t ∈ (ordinaryTurn q).toList, t.sender = "agent" := by
  obtain ⟨now, parsed⟩ := q
  cases parsed with
  | none => simp [ordinaryTurn]
  | some data =>
    simp only [ordinaryTurn]
    split
    · intro t ht
      rw [Option.mem_toList, Option.mem_def, Option.some.injEq] at ht
      rw [← ht]
      rfl
    · simp

theorem sendMessage_senders (now message type : String) (s : State)
    (h : ∀ t ∈ s.messages, t.sender = "user" ∨ t.sender = "agent") :
    ∀ t ∈ (sendMessage now message type s).messages, t.sender = "user" ∨ t.sender = "agent" := by
  by_cases hg : jsTrim message = "" ∨ s.loading = true ∨ s.connected = false
  · rw [sendMessage_of_guard now message type s hg]
    exact h
  · rw [sendMessage_of_not_guard now message type s hg]
    intro t ht
    rcases List.mem_append.mp ht with ht | ht
    · exact h t ht
    · rw [List.mem_singleton] at ht
      rw [ht]
      exact Or.inl rfl

/-- Every handler keeps the senders of the transcript within user and agent. -/
theorem step_senders (s : State) (e : Event)
    (h : ∀ t ∈ s.messages, t.sender = "user" ∨ t.sender = "agent") :
    ∀ t ∈ (step s e).messages, t.sender = "user" ∨ t.sender = "agent" := by
  cases e with
  | inbound now parsed =>
    cases hw : isWelcomeInbound (now, parsed) with
    | true =>
      cases parsed with
      | none => simp [isWelcomeInbound] at hw
      | some data =>
        have hm := (onmessage_welcome now data s hw).1
        intro t ht
        simp only [step] at ht
        rw [hm, List.mem_singleton] at ht
        rw [ht]
        exact Or.inr rfl
    | false =>
      have hm := (onmessage_otherwise now parsed s hw).1
      intro t ht
      simp only [step] at ht
      rw [hm] at ht
      rcases List.mem_append.mp ht with ht | ht
      · exact h t ht
      · exact Or.inr (ordinaryTurn_sender (now, parsed) t ht)
  | send now message type => exact sendMessage_senders now message type s h
  | submit now => exact sendMessage_senders now s.currentMessage "text" s h
  | result now event =>
    simp only [step]
    rw [(onresult_records_nothing now event s).1]
    exact h

theorem run_senders (es : List Event) :
    ∀ s : State, (∀ t ∈ s.messages, t.sender = "user" ∨ t.sender = "agent") →
      ∀ t ∈ (run s es).messages, t.sender = "user" ∨ t.sender = "agent" := by
  induction es with
  | nil => intro s h; exact h
  | cons e es ih =>
    intro s h
    rw [run_cons]
    exact ih (step s e) (step_senders s e h)

/-- C15: for every transcript reached from the empty one by inbound messages, sends, form
submissions and speech results, the summary counts as total the length of the transcript, as
participant count the turns with sender user, as agent count the turns with sender agent, and
the total is the sum of the two.  The summary is produced when the texts of the first three
turns are strings. -/
theorem summary_counts (toLowerCase : String → String) (toLocaleString : Int → String)
    (endTime : Int) (s0 : State) (es : List Event) (h0 : s0.messages = [])
    (hstr : ∀ t ∈ (run s0 es).messages.take 3, t.message.isString = true) :
    ∃ sm, generateConversationSummary toLowerCase toLocaleString endTime (run s0 es) = some sm ∧
      sm.totalMessages = (run s0 es).messages.length ∧
      sm.userMessages = (run s0 es).messages.countP (fun t => decide (t.sender = "user")) ∧
      sm.agentMessages = (run s0 es).messages.countP (fun t => decide (t.sender = "agent")) ∧
      sm.totalMessages = sm.userMessages + sm.agentMessages := by
  refine ⟨_, generateConversationSummary_of_str toLowerCase toLocaleString endTime _ hstr,
    rfl, ?_, ?_, ?_⟩
  · exact (List.countP_eq_length_filter _ _).symm
  · exact (List.countP_eq_length_filter _ _).symm
  · have hs := run_senders es s0 (by rw [h0]; simp)
    show (run s0 es).messages.length =
      ((run s0 es).messages.filter (fun msg => decide (msg.sender = "user"))).length +
        ((run s0 es).messages.filter (fun msg => decide (msg.sender = "agent"))).length
    rw [← List.countP_eq_length_filter, ← List.countP_eq_length_filter,
      List.length_eq_countP_add_countP (fun t : Turn => decide (t.sender = "user"))]
    congr 1
    apply List.countP_congr
    intro t ht
    rcases hs t ht with h | h <;> simp [h]

/-- A concrete instance of C15: a welcome, a message sent by the user and a reply. -/
theorem summary_counts_witness :
    ∃ sm, generateConversationSummary asciiLowerCase toString 90000
        (run { initialState with connected := true, wsReadyState := some WebSocket.OPEN }
          [.inbound "10:00" (some { type := .str "welcome", message := .str "Hi there" }),
            .send "10:01" "John" "text",
            .inbound "10:02" (some { message := .str "Hello John" })]) = some sm ∧
      sm.totalMessages =
        (run { initialState with connected := true, wsReadyState := some WebSocket.OPEN }
          [.inbound "10:00" (some { type := .str "welcome", message := .str "Hi there" }),
            .send "10:01" "John" "text",
            .inbound "10:02" (some { message := .str "Hello John" })]).messages.length ∧
      sm.userMessages =
        (run { initialState with connected := true, wsReadyState := some WebSocket.OPEN }
          [.inbound "10:00" (some { type := .str "welcome", message := .str "Hi there" }),
            .send "10:01" "John" "text",
            .inbound "10:02" (some { message := .str "Hello John" })]).messages.countP
          (fun t => decide (t.sender = "user")) ∧
      sm.agentMessages =
        (run { initialState with connected := true, wsReadyState := some WebSocket.OPEN }
          [.inbound "10:00" (some { type := .str "welcome", message := .str "Hi there" }),
            .send "10:01" "John" "text",
            .inbound "10:02" (some { message := .str "Hello John" })]).messages.countP
          (fun t => decide (t.sender = "agent")) ∧
      sm.totalMessages = sm.userMessages + sm.agentMessages :=
  summary_counts asciiLowerCase toString 90000
    { initialState with connected := true, wsReadyState := some WebSocket.OPEN }
    [.inbound "10:00" (some { type := .str "welcome", message := .str "Hi there" }),
      .send "10:01" "John" "text",
      .inbound "10:02" (some { message := .str "Hello John" })]
    rfl (by decide)

/-- The counts of the summary on the transcript of that witness: three turns, one of the
participant and two of the agent. -/
theorem scenario_summary_counts :
    (generateConversationSummary asciiLowerCase toString 90000
        (run { initialState with connected := true, wsReadyState := some WebSocket.OPEN }
          [.inbound "10:00" (some { type := .str "welcome", message := .str "Hi there" }),
            .send "10:01" "John" "text",
            .inbound "10:02" (some { message := .str "Hello John" })])).map
      (fun sm => (sm.totalMessages, sm.userMessages, sm.agentMessages)) = some (3, 1, 2) := by
  decide

theorem extractKeyTopics_congr (toLowerCase : String → String) (l1 l2 : List Turn)
    (h : l1.map Turn.message = l2.map Turn.message) :
    extractKeyTopics toLowerCase l1 = extractKeyTopics toLowerCase l2 := by
  have ht : allText toLowerCase l1 = allText toLowerCase l2 := by
    unfold allText
    have h1 : ∀ l : List Turn, l.map (fun msg => jsToString msg.message) =
        (l.map Turn.message).map jsToString := by
      intro l
      rw [List.map_map]
      rfl
    rw [h1 l1, h1 l2, h]
  unfold extractKeyTopics contentWords
  rw [ht]

/-- C19: the key topics of the summary depend on the participant turns only: two transcripts
whose participant turns carry the same texts in the same order get the same key topics,
namely those `extractKeyTopics` computes from the participant turns, whatever their agent
turns, end times and other state.  The summaries are produced when the texts of the first
three turns are strings. -/
theorem keyTopics_depend_on_participant_turns (toLowerCase : String → String)
    (toLocaleString : Int → String) (endTime1 endTime2 : Int) (s1 s2 : State)
    (hsame : (s1.messages.filter (fun msg => msg.sender = "user")).map Turn.message =
      (s2.messages.filter (fun msg => msg.sender = "user")).map Turn.message)
    (hstr1 : ∀ t ∈ s1.messages.take 3, t.message.isString = true)
    (hstr2 : ∀ t ∈ s2.messages.take 3, t.message.isString = true) :
    ∃ sm1 sm2,
      generateConversationSummary toLowerCase toLocaleString endTime1 s1 = some sm1 ∧
      generateConversationSummary toLowerCase toLocaleString endTime2 s2 = some sm2 ∧
      sm1.keyTopics = sm2.keyTopics ∧
      sm1.keyTopics =
        extractKeyTopics toLowerCase (s1.messages.filter (fun msg => msg.sender = "user")) :=
  ⟨_, _, generateConversationSummary_of_str toLowerCase toLocaleString endTime1 s1 hstr1,
    generateConversationSummary_of_str toLowerCase toLocaleString endTime2 s2 hstr2,
    extractKeyTopics_congr toLowerCase _ _ hsame, rfl⟩

/-- A concrete instance of C19: the same participant turn with and without agent turns
around it. -/
theorem keyTopics_depend_on_participant_turns_witness :
    ∃ sm1 sm2,
      generateConversationSummary asciiLowerCase toString 90000
        { initialState with
          messages := [⟨"agent", .str "Which topic today?", "10:00", .str "welcome"⟩,
            userTurn "Pricing plans", ⟨"agent", .str "Pricing it is", "10:02", .str "text"⟩] }
        = some sm1 ∧
      generateConversationSummary asciiLowerCase toString 120000
        { initialState with messages := [userTurn "Pricing plans"] } = some sm2 ∧
      sm1.keyTopics = sm2.keyTopics ∧
      sm1.keyTopics =
        extractKeyTopics asciiLowerCase
          (({ initialState with
              messages := [⟨"agent", .str "Which topic today?", "10:00", .str "welcome"⟩,
                userTurn "Pricing plans",
                ⟨"agent", .str "Pricing it is", "10:02", .str "text"⟩] } : State).messages.filter
            (fun msg => msg.sender = "user")) :=
  keyTopics_depend_on_participant_turns asciiLowerCase toString 90000 120000
    { initialState with
      messages := [⟨"agent", .str "Which topic today?", "10:00", .str "welcome"⟩,
        userTurn "Pricing plans", ⟨"agent", .str "Pricing it is", "10:02", .str "text"⟩] }
    { initialState with messages := [userTurn "Pricing plans"] }
    (by decide) (by decide) (by decide)

theorem length_toUtf16_dots : (toUtf16 "...").length = 3 := by decide

theorem preview_of_short (x : String) (h : jsLength x ≤ 100) : preview x = toUtf16 x := by
  unfold preview
  rw [if_neg (by omega), List.append_nil]
  exact List.take_of_length_le h

theorem preview_of_long (x : String) (h : 100 < jsLength x) :
    preview x = (toUtf16 x).take 100 ++ toUtf16 "..." := by
  unfold preview
  rw [if_pos h]

theorem length_preview_le (x : String) : (preview x).length ≤ 103 := by
  unfold preview
  rw [List.length_append]
  have h1 := List.length_take_le 100 (toUtf16 x)
  split
  · rw [length_toUtf16_dots]; omega
  · simp only [List.length_nil]; omega

/-- C20: the conversation flow of the summary has min(3, n) entries for a transcript of n
turns; entry i has the sender of turn i, and its preview is the text of the turn when that
has at most 100 characters (UTF-16 code units, as `length` counts them) and otherwise its
first 100 characters followed by three dots, so no preview is longer than 103 characters.
The summary is produced when the texts of the first three turns are strings. -/
theorem conversationFlow_previews (toLowerCase : String → String)
    (toLocaleString : Int → String) (endTime : Int) (s : State)
    (hstr : ∀ t ∈ s.messages.take 3, t.message.isString = true) :
    ∃ sm, generateConversationSummary toLowerCase toLocaleString endTime s = some sm ∧
      sm.conversationFlow.length = min 3 s.messages.length ∧
      (∀ e ∈ sm.conversationFlow, e.preview.length ≤ 103) ∧
      ∀ (i : Nat) (t : Turn), i < 3 → s.messages[i]? = some t →
        ∃ e, sm.conversationFlow[i]? = some e ∧ e.sender = t.sender ∧
          ∀ x, t.message = .str x →
            (jsLength x ≤ 100 → e.preview = toUtf16 x) ∧
            (100 < jsLength x → e.preview = (toUtf16 x).take 100 ++ toUtf16 "...") := by
  refine ⟨_, generateConversationSummary_of_str toLowerCase toLocaleString endTime s hstr,
    ?_, ?_, ?_⟩
  · simp only [List.length_map, List.length_take]
  · intro e he
    simp only [List.mem_map] at he
    obtain ⟨t, _, rfl⟩ := he
    exact length_preview_le _
  · intro i t hi ht
    refine ⟨{ sender := t.sender, preview := preview (jsToString t.message) }, ?_, rfl, ?_⟩
    · simp only [List.getElem?_map, List.getElem?_take_of_lt hi, ht, Option.map_some']
    · intro x hx
      simp only [hx, jsToString]
      exact ⟨preview_of_short x, preview_of_long x⟩

/-- A concrete instance of C20: a transcript of four turns. -/
theorem conversationFlow_previews_witness :
    ∃ sm, generateConversationSummary asciiLowerCase toString 90000
        { initialState with
          messages := [⟨"agent", .str "Hi there", "10:00", .str "welcome"⟩, userTurn "John",
            ⟨"agent", .str "Hello John", "10:02", .str "text"⟩, userTurn "Bye"] } = some sm ∧
      sm.conversationFlow.length = min 3
        ({ initialState with
          messages := [⟨"agent", .str "Hi there", "10:00", .str "welcome"⟩, userTurn "John",
            ⟨"agent", .str "Hello John", "10:02", .str "text"⟩,
            userTurn "Bye"] } : State).messages.length ∧
      (∀ e ∈ sm.conversationFlow, e.preview.length ≤ 103) ∧
      ∀ (i : Nat) (t : Turn), i < 3 →
        ({ initialState with
          messages := [⟨"agent", .str "Hi there", "10:00", .str "welcome"⟩, userTurn "John",
            ⟨"agent", .str "Hello John", "10:02", .str "text"⟩,
            userTurn "Bye"] } : State).messages[i]? = some t →
        ∃ e, sm.conversationFlow[i]? = some e ∧ e.sender = t.sender ∧
          ∀ x, t.message = .str x →
            (jsLength x ≤ 100 → e.preview = toUtf16 x) ∧
            (100 < jsLength x → e.preview = (toUtf16 x).take 100 ++ toUtf16 "...") :=
  conversationFlow_previews asciiLowerCase toString 90000
    { initialState with
      messages := [⟨"agent", .str "Hi there", "10:00", .str "welcome"⟩, userTurn "John",
        ⟨"agent", .str "Hello John", "10:02", .str "text"⟩, userTurn "Bye"] }
    (by decide)

set_option maxRecDepth 100000 in
/-- The preview of a text of 101 characters: its first 100 characters and three dots. -/
theorem preview_of_101_characters :
    preview ⟨List.replicate 101 (Char.ofNat 97)⟩ =
      List.replicate 100 97 ++ [46, 46, 46] := by
  decide

/-! ## Key topics -/

theorem mem_splitWhiteSpaceAux (cs : List Char) :
    ∀ (cur : List Char) (inSep : Bool), ∀ tok ∈ splitWhiteSpaceAux cur inSep cs,
      ∀ c ∈ tok.data, c ∈ cur ∨ (c ∈ cs ∧ isJsWhiteSpace c = false) := by
  induction cs with
  | nil =>
    intro cur inSep tok htok c hc
    simp only [splitWhiteSpaceAux, List.mem_singleton] at htok
    rw [htok] at hc
    exact Or.inl (List.mem_reverse.mp hc)
  | cons d cs ih =>
    intro cur inSep tok htok c hc
    simp only [splitWhiteSpaceAux] at htok
    by_cases hd : isJsWhiteSpace d = true
    · rw [if_pos hd] at htok
      have hrec : tok ∈ splitWhiteSpaceAux [] true cs → c ∈ cur ∨ (c ∈ d :: cs ∧ isJsWhiteSpace c = false) := by
        intro h
        rcases ih [] true tok h c hc with h1 | h1
        · simp at h1
        · exact Or.inr ⟨List.mem_cons_of_mem _ h1.1, h1.2⟩
      cases inSep with
      | true => exact hrec (by simpa using htok)
      | false =>
        simp only [Bool.false_eq_true, if_false, List.mem_cons] at htok
        rcases htok with h | h
        · rw [h] at hc
          exact Or.inl (List.mem_reverse.mp hc)
        · exact hrec h
    · rw [if_neg hd] at htok
      rcases ih (d :: cur) false tok htok c hc with h1 | h1
      · rcases List.mem_cons.mp h1 with h2 | h2
        · exact Or.inr ⟨by rw [h2]; exact List.mem_cons_self _ _, by rw [h2]; simpa using hd⟩
        · exact Or.inl h2
      · exact Or.inr ⟨List.mem_cons_of_mem _ h1.1, h1.2⟩

theorem mem_splitWhiteSpace (s tok : String) (h : tok ∈ splitWhiteSpace s) :
    ∀ c ∈ tok.data, c ∈ s.data ∧ isJsWhiteSpace c = false := by
  intro c hc
  rcases mem_splitWhiteSpaceAux s.data [] false tok h c hc with h1 | h1
  · simp at h1
  · exact h1

theorem mem_contentWords (toLowerCase : String → String) (userMessages : List Turn)
    (w : String) :
    w ∈ contentWords toLowerCase userMessages ↔
      w ∈ splitWhiteSpace (allText toLowerCase userMessages) ∧ 3 < jsLength w ∧
        w ∉ commonWords := by
  unfold contentWords
  simp [List.mem_filter]

theorem countWords_append_singleton (ws : List String) (w : String) :
    countWords (ws ++ [w]) = countWord (countWords ws) w := by
  simp [countWords, List.foldl_append]

theorem bump_eq (w : String) (l : List (String × Nat)) (hnd : (l.map Prod.fst).Nodup) :
    bump w l =
      if w ∈ l.map Prod.fst then l.map (fun e => if e.1 = w then (e.1, e.2 + 1) else e)
      else l ++ [(w, 1)] := by
  induction l with
  | nil => simp [bump]
  | cons e rest ih =>
    obtain ⟨k, n⟩ := e
    rw [List.map_cons, List.nodup_cons] at hnd
    obtain ⟨hk, hrest⟩ := hnd
    simp only [bump]
    by_cases hkw : k = w
    · subst hkw
      have hid : rest.map (fun e => if e.1 = k then (e.1, e.2 + 1) else e) = rest := by
        conv_rhs => rw [← List.map_id rest]
        apply List.map_congr_left
        intro e he
        have : e.1 ≠ k := fun h => hk (List.mem_map.mpr ⟨e, he, h⟩)
        simp [this]
      simp [hid]
    · rw [if_neg hkw, ih hrest]
      have hwk : ¬ w = k := fun h => hkw h.symm
      by_cases hm : w ∈ rest.map Prod.fst
      · rw [if_pos hm, if_pos (by simp only [List.map_cons, List.mem_cons]; exact Or.inr hm)]
        simp [hkw]
      · rw [if_neg hm, if_neg (by simp only [List.map_cons, List.mem_cons]; rintro (h | h); exacts [hwk h, hm h])]
        simp

/-- What the counting loop builds: one property per word other than `__proto__`, in order of
first occurrence, holding the number of occurrences of the word. -/
theorem countWords_spec (ws : List String) :
    ((countWords ws).map Prod.fst).Nodup ∧
    (∀ e ∈ countWords ws, e.1 ∈ ws ∧ e.1 ≠ "__proto__" ∧ e.2 = ws.count e.1) ∧
    (∀ w ∈ ws, w ≠ "__proto__" → w ∈ (countWords ws).map Prod.fst) ∧
    (countWords ws).Pairwise (fun a b => ws.indexOf a.1 < ws.indexOf b.1) := by
  induction ws using List.reverseRecOn with
  | nil => simp [countWords]
  | append_singleton ws w ih =>
    obtain ⟨hnd, hcnt, hcov, hord⟩ := ih
    rw [countWords_append_singleton]
    unfold countWord
    by_cases hp : w = "__proto__"
    · rw [if_pos hp]
      refine ⟨hnd, ?_, ?_, ?_⟩
      · intro e he
        obtain ⟨h1, h2, h3⟩ := hcnt e he
        refine ⟨List.mem_append_left _ h1, h2, ?_⟩
        have : ¬ w = e.1 := by rw [hp]; exact fun h => h2 h.symm
        rw [h3]
        simp [List.count_append, List.count_singleton, this]
      · intro v hv hvp
        rcases List.mem_append.mp hv with h | h
        · exact hcov v h hvp
        · rw [List.mem_singleton] at h
          exact absurd (h.trans hp) hvp
      · refine hord.imp_of_mem ?_
        intro a b ha hb hab
        rw [List.indexOf_append_of_mem (hcnt a ha).1, List.indexOf_append_of_mem (hcnt b hb).1]
        exact hab
    · rw [if_neg hp, bump_eq w _ hnd]
      by_cases hm : w ∈ (countWords ws).map Prod.fst
      · rw [if_pos hm]
        have hkeys : ((countWords ws).map (fun e => if e.1 = w then (e.1, e.2 + 1) else e)).map
            Prod.fst = (countWords ws).map Prod.fst := by
          rw [List.map_map]
          apply List.map_congr_left
          intro e _
          by_cases h : e.1 = w <;> simp [h]
        refine ⟨by rw [hkeys]; exact hnd, ?_, ?_, ?_⟩
        · intro e he
          rw [List.mem_map] at he
          obtain ⟨e0, he0, rfl⟩ := he
          obtain ⟨h1, h2, h3⟩ := hcnt e0 he0
          by_cases h : e0.1 = w
          · simp only [h, if_true]
            refine ⟨by simp, hp, ?_⟩
            rw [h3, h]
            simp [List.count_append, List.count_singleton]
          · simp only [h, if_false]
            refine ⟨List.mem_append_left _ h1, h2, ?_⟩
            have : ¬ w = e0.1 := fun h' => h h'.symm
            rw [h3]
            simp [List.count_append, List.count_singleton, this]
        · intro v hv hvp
          rw [hkeys]
          rcases List.mem_append.mp hv with h | h
          · exact hcov v h hvp
          · rw [List.mem_singleton] at h
            rw [h]
            exact hm
        · rw [List.pairwise_map]
          refine hord.imp_of_mem ?_
          intro a b ha hb hab
          have ha1 : (if a.1 = w then (a.1, a.2 + 1) else a).1 = a.1 := by
            by_cases h : a.1 = w <;> simp [h]
          have hb1 : (if b.1 = w then (b.1, b.2 + 1) else b).1 = b.1 := by
            by_cases h : b.1 = w <;> simp [h]
          rw [ha1, hb1, List.indexOf_append_of_mem (hcnt a ha).1,
            List.indexOf_append_of_mem (hcnt b hb).1]
          exact hab
      · rw [if_neg hm]
        have hw : w ∉ ws := fun h => hm (hcov w h hp)
        refine ⟨?_, ?_, ?_, ?_⟩
        · rw [List.map_append, List.map_singleton]
          exact List.Nodup.append hnd (List.nodup_singleton _)
            (by
              rw [List.disjoint_singleton]
              exact hm)
        · intro e he
          rcases List.mem_append.mp he with h | h
          · obtain ⟨h1, h2, h3⟩ := hcnt e h
            refine ⟨List.mem_append_left _ h1, h2, ?_⟩
            have : ¬ w = e.1 := fun h' => hw (h' ▸ h1)
            rw [h3]
            simp [List.count_append, List.count_singleton, this]
          · rw [List.mem_singleton] at h
            rw [h]
            refine ⟨by simp, hp, ?_⟩
            simp [List.count_append, List.count_singleton, List.count_eq_zero_of_not_mem hw]
        · intro v hv hvp
          rw [List.map_append, List.map_singleton]
          rcases List.mem_append.mp hv with h | h
          · exact List.mem_append_left _ (hcov v h hvp)
          · exact List.mem_append_right _ h
        · rw [List.pairwise_append]
          refine ⟨?_, List.pairwise_singleton _ _, ?_⟩
          · refine hord.imp_of_mem ?_
            intro a b ha hb hab
            rw [List.indexOf_append_of_mem (hcnt a ha).1,
              List.indexOf_append_of_mem (hcnt b hb).1]
            exact hab
          · intro a ha b hb
            rw [List.mem_singleton] at hb
            rw [hb, List.indexOf_append_of_mem (hcnt a ha).1,
              List.indexOf_append_of_not_mem hw]
            have := List.indexOf_lt_length.mpr (hcnt a ha).1
            simp only [List.indexOf_cons_self]
            omega


theorem objectEntries_perm (wc : List (String × Nat)) : (objectEntries wc).Perm wc := by
  unfold objectEntries
  exact ((List.perm_insertionSort indexOrder _).append_right _).trans
    (List.filter_append_perm (fun e => isArrayIndex e.1) wc)

theorem mem_objectEntries (wc : List (String × Nat)) (e : String × Nat) :
    e ∈ objectEntries wc ↔ e ∈ wc :=
  (objectEntries_perm wc).mem_iff

/-- The enumeration of the counted words: array indices first, in ascending numeric order,
then the other words in order of first occurrence. -/
theorem pairwise_objectEntries (ws : List String) :
    (objectEntries (countWords ws)).Pairwise (fun a b => entryBefore ws a.1 b.1) := by
  obtain ⟨_, _, _, hord⟩ := countWords_spec ws
  unfold objectEntries
  rw [List.pairwise_append]
  refine ⟨?_, ?_, ?_⟩
  · have hs : List.Pairwise indexOrder
        (List.insertionSort indexOrder
          ((countWords ws).filter (fun e => isArrayIndex e.1))) :=
      List.sorted_insertionSort indexOrder _
    refine hs.imp_of_mem ?_
    intro a b ha hb hab
    rw [List.mem_insertionSort, List.mem_filter] at ha hb
    exact Or.inr (Or.inl ⟨ha.2, hb.2, hab⟩)
  · have hs : ((countWords ws).filter (fun e => !isArrayIndex e.1)).Pairwise
        (fun a b => ws.indexOf a.1 < ws.indexOf b.1) := hord.filter _
    refine hs.imp_of_mem ?_
    intro a b ha hb hab
    rw [List.mem_filter] at ha hb
    exact Or.inr (Or.inr ⟨by simpa using ha.2, by simpa using hb.2, hab⟩)
  · intro a ha b hb
    rw [List.mem_insertionSort, List.mem_filter] at ha
    rw [List.mem_filter] at hb
    exact Or.inl ⟨ha.2, by simpa using hb.2⟩

theorem nodup_objectEntries (ws : List String) : (objectEntries (countWords ws)).Nodup :=
  (objectEntries_perm _).nodup_iff.mpr (List.Nodup.of_map _ (countWords_spec ws).1)

theorem pair_sublist_or {α : Type} (l : List α) (a b : α) (ha : a ∈ l) (hb : b ∈ l)
    (hab : a ≠ b) : [a, b].Sublist l ∨ [b, a].Sublist l := by
  induction l with
  | nil => simp at ha
  | cons x t ih =>
    rcases List.mem_cons.mp ha with rfl | ha1
    · rcases List.mem_cons.mp hb with h | hb1
      · exact absurd h.symm hab
      · exact Or.inl (List.Sublist.cons₂ _ (List.singleton_sublist.mpr hb1))
    · rcases List.mem_cons.mp hb with rfl | hb1
      · exact Or.inr (List.Sublist.cons₂ _ (List.singleton_sublist.mpr ha1))
      · rcases ih ha1 hb1 with h | h
        · exact Or.inl (List.Sublist.cons _ h)
        · exact Or.inr (List.Sublist.cons _ h)

theorem not_pair_sublist_swap {α : Type} (l : List α) (a b : α) (hnd : l.Nodup)
    (h1 : [a, b].Sublist l) (h2 : [b, a].Sublist l) : False := by
  induction l with
  | nil => cases h1
  | cons x t ih =>
    rw [List.nodup_cons] at hnd
    cases h1 with
    | cons _ h1 =>
      cases h2 with
      | cons _ h2 => exact ih hnd.2 h1 h2
      | cons₂ _ h2 => exact hnd.1 (h1.subset (by simp))
    | cons₂ _ h1 =>
      cases h2 with
      | cons _ h2 => exact hnd.1 (h2.subset (by simp))
      | cons₂ _ h2 => exact hnd.1 (h1.subset (by simp))

/-- Stability of the sort by count: two entries with the same count stand in the sorted array
in the order they had in the enumeration. -/
theorem pair_sublist_of_sorted (E : List (String × Nat)) (hnd : E.Nodup) (a b : String × Nat)
    (h : [a, b].Sublist (E.insertionSort countOrder)) (hab : a.2 = b.2) :
    [a, b].Sublist E := by
  have hnds : (E.insertionSort countOrder).Nodup :=
    (List.perm_insertionSort countOrder E).nodup_iff.mpr hnd
  have hne : a ≠ b := by
    have := hnds.sublist h
    rw [List.nodup_cons] at this
    exact fun hh => this.1 (by rw [hh]; simp)
  have ha : a ∈ E := (List.mem_insertionSort countOrder).mp (h.subset (by simp))
  have hb : b ∈ E := (List.mem_insertionSort countOrder).mp (h.subset (by simp))
  rcases pair_sublist_or E a b ha hb hne with h1 | h1
  · exact h1
  · have hba : countOrder b a := by
      show a.2 ≤ b.2
      rw [hab]
    exact absurd (List.pair_sublist_insertionSort hba h1)
      (fun h2 => not_pair_sublist_swap _ a b hnds h h2)

theorem extractKeyTopics_of_no_inherited (toLowerCase : String → String)
    (userMessages : List Turn)
    (hfn : ∀ w ∈ contentWords toLowerCase userMessages, w ∉ inheritedFunctionNames) :
    extractKeyTopics toLowerCase userMessages =
      some ((((objectEntries (countWords (contentWords toLowerCase userMessages))).insertionSort
        countOrder).take 5).map (fun e => { word := e.1, count := e.2 })) := by
  unfold extractKeyTopics
  simp only
  rw [if_neg]
  simp only [List.any_eq_true, not_exists, not_and]
  intro w hw
  simpa using hfn w hw

theorem extractKeyTopics_eq_some (toLowerCase : String → String) (userMessages : List Turn)
    (r : List Topic) (h : extractKeyTopics toLowerCase userMessages = some r) :
    r = (((objectEntries (countWords (contentWords toLowerCase userMessages))).insertionSort
        countOrder).take 5).map (fun e => { word := e.1, count := e.2 }) := by
  unfold extractKeyTopics at h
  simp only at h
  split at h
  · exact absurd h (by simp)
  · exact (Option.some.inj h).symm

/-- Every returned topic is a counted content word with its number of occurrences. -/
theorem mem_topics (toLowerCase : String → String) (userMessages : List Turn)
    (r : List Topic) (h : extractKeyTopics toLowerCase userMessages = some r) :
    ∀ t ∈ r, t.word ∈ contentWords toLowerCase userMessages ∧ t.word ≠ "__proto__" ∧
      t.count = (contentWords toLowerCase userMessages).count t.word := by
  intro t ht
  rw [extractKeyTopics_eq_some toLowerCase userMessages r h, List.mem_map] at ht
  obtain ⟨e, he, rfl⟩ := ht
  have he1 := (List.mem_insertionSort countOrder).mp (List.mem_of_mem_take he)
  rw [mem_objectEntries] at he1
  exact (countWords_spec _).2.1 e he1

/-- The entry of a content word that is not returned stands after every returned entry in the
array sorted by count. -/
theorem pair_sublist_returned_dropped (toLowerCase : String → String)
    (userMessages : List Turn) (r : List Topic)
    (h : extractKeyTopics toLowerCase userMessages = some r) (w : String)
    (hw : w ∈ contentWords toLowerCase userMessages) (hwp : w ≠ "__proto__")
    (hnot : ∀ x ∈ r, x.word ≠ w) (y : Topic) (hy : y ∈ r) :
    [(y.word, y.count), (w, (contentWords toLowerCase userMessages).count w)].Sublist
      ((objectEntries (countWords (contentWords toLowerCase userMessages))).insertionSort
        countOrder) := by
  have hr := extractKeyTopics_eq_some toLowerCase userMessages r h
  obtain ⟨_, hcnt, hcov, _⟩ := countWords_spec (contentWords toLowerCase userMessages)
  have hwk := hcov w hw hwp
  rw [List.mem_map] at hwk
  obtain ⟨e, he, hew⟩ := hwk
  have he2 := (hcnt e he).2.2
  have hee : e = (w, (contentWords toLowerCase userMessages).count w) := by
    rw [← hew, ← he2]
  rw [hee] at he
  have heS : (w, (contentWords toLowerCase userMessages).count w) ∈
      (objectEntries (countWords (contentWords toLowerCase userMessages))).insertionSort
        countOrder :=
    (List.mem_insertionSort countOrder).mpr ((mem_objectEntries _ _).mpr he)
  rw [← List.take_append_drop 5
    ((objectEntries (countWords (contentWords toLowerCase userMessages))).insertionSort
      countOrder)] at heS ⊢
  have hdrop : (w, (contentWords toLowerCase userMessages).count w) ∈
      List.drop 5 ((objectEntries (countWords
        (contentWords toLowerCase userMessages))).insertionSort countOrder) := by
    rcases List.mem_append.mp heS with h1 | h1
    · exfalso
      refine hnot { word := w, count := (contentWords toLowerCase userMessages).count w } ?_ rfl
      rw [hr, List.mem_map]
      exact ⟨_, h1, rfl⟩
    · exact h1
  rw [hr, List.mem_map] at hy
  obtain ⟨ey, hey, rfl⟩ := hy
  exact (List.singleton_sublist.mpr hey).append (List.singleton_sublist.mpr hdrop)

/-- What `extractKeyTopics` does achieve: at most five topics, in order of non-increasing
count, and no content word other than `__proto__` that is left out occurs more often than a
topic that is returned. -/
theorem topics_sorted_and_top (toLowerCase : String → String) (userMessages : List Turn)
    (r : List Topic) (h : extractKeyTopics toLowerCase userMessages = some r) :
    r.length ≤ 5 ∧ r.Pairwise (fun x y => y.count ≤ x.count) ∧
    (∀ w ∈ contentWords toLowerCase userMessages, w ≠ "__proto__" → (∀ x ∈ r, x.word ≠ w) →
      ∀ y ∈ r, (contentWords toLowerCase userMessages).count w ≤ y.count) := by
  have hr := extractKeyTopics_eq_some toLowerCase userMessages r h
  have hS : List.Pairwise countOrder
      ((objectEntries (countWords (contentWords toLowerCase userMessages))).insertionSort
        countOrder) := List.sorted_insertionSort countOrder _
  refine ⟨?_, ?_, ?_⟩
  · rw [hr, List.length_map]
    exact List.length_take_le 5 _
  · rw [hr, List.pairwise_map]
    exact (hS.sublist (List.take_sublist 5 _)).imp (fun hab => hab)
  · intro w hw hwp hnot y hy
    have hsub := pair_sublist_returned_dropped toLowerCase userMessages r h w hw hwp hnot y hy
    exact List.pairwise_iff_forall_sublist.mp hS hsub

/-- C16, evaluated where it fails: in the text of this participant turn the content word
`__proto__` occurs twice and hello once, yet hello alone is returned, with count 1. -/
theorem extractKeyTopics_drops_proto :
    contentWords asciiLowerCase [userTurn "__proto__ __proto__ hello"]
      = ["__proto__", "__proto__", "hello"] ∧
    extractKeyTopics asciiLowerCase [userTurn "__proto__ __proto__ hello"]
      = some [{ word := "hello", count := 1 }] := by
  decide

/-- C17 as stated fails: hello occurs before 2024 in the text and both occur once, yet 2024 is
ranked ahead of hello. -/
theorem digits_rank_ahead_of_earlier_word :
    contentWords asciiLowerCase [userTurn "hello 2024"] = ["hello", "2024"] ∧
    extractKeyTopics asciiLowerCase [userTurn "hello 2024"]
      = some [{ word := "2024", count := 1 }, { word := "hello", count := 1 }] := by
  decide

/-- C17, amended: when no content word names a function inherited from `Object.prototype`,
topics with the same count are ranked in the order of `Object.entries`: array indices (decimal
numerals without leading zero below 2^32 - 1, such as 2024) ahead of all other words and in
ascending numeric order, the other words in order of first occurrence; and the same order
decides which of the tied words make the top 5: a content word other than `__proto__` that is
left out comes in that order after every returned topic of the same count. -/
theorem tied_topics_follow_entries (toLowerCase : String → String) (userMessages : List Turn)
    (hfn : ∀ w ∈ contentWords toLowerCase userMessages, w ∉ inheritedFunctionNames) :
    ∃ r, extractKeyTopics toLowerCase userMessages = some r ∧
      r.Pairwise (fun x y => x.count = y.count →
        entryBefore (contentWords toLowerCase userMessages) x.word y.word) ∧
      (∀ w ∈ contentWords toLowerCase userMessages, w ≠ "__proto__" →
        (∀ x ∈ r, x.word ≠ w) →
        ∀ y ∈ r, y.count = (contentWords toLowerCase userMessages).count w →
          entryBefore (contentWords toLowerCase userMessages) y.word w) := by
  have h := extractKeyTopics_of_no_inherited toLowerCase userMessages hfn
  have hE := pairwise_objectEntries (contentWords toLowerCase userMessages)
  have hnd := nodup_objectEntries (contentWords toLowerCase userMessages)
  refine ⟨_, h, ?_, ?_⟩
  · rw [List.pairwise_map]
    refine List.Pairwise.sublist (List.take_sublist 5 _) ?_
    rw [List.pairwise_iff_forall_sublist]
    intro a b hab heq
    exact List.pairwise_iff_forall_sublist.mp hE (pair_sublist_of_sorted _ hnd a b hab heq)
  · intro w hw hwp hnot y hy hcnt
    have hsub := pair_sublist_returned_dropped toLowerCase userMessages _ h w hw hwp hnot y hy
    exact List.pairwise_iff_forall_sublist.mp hE
      (pair_sublist_of_sorted _ hnd _ _ hsub hcnt)

/-- A concrete instance of the amended C17: three words that occur once each, one of them an
array index. -/
theorem tied_topics_follow_entries_witness :
    ∃ r, extractKeyTopics asciiLowerCase [userTurn "hello 2024 world"] = some r ∧
      r.Pairwise (fun x y => x.count = y.count →
        entryBefore (contentWords asciiLowerCase [userTurn "hello 2024 world"])
          x.word y.word) ∧
      (∀ w ∈ contentWords asciiLowerCase [userTurn "hello 2024 world"], w ≠ "__proto__" →
        (∀ x ∈ r, x.word ≠ w) →
        ∀ y ∈ r, y.count = (contentWords asciiLowerCase [userTurn "hello 2024 world"]).count w →
          entryBefore (contentWords asciiLowerCase [userTurn "hello 2024 world"]) y.word w) :=
  tied_topics_follow_entries asciiLowerCase [userTurn "hello 2024 world"] (by decide)

/-- C18: `extractKeyTopics` yields a result unless a content word names a function inherited
from `Object.prototype`, and every word it returns is outside the stop-word set, has more than
3 characters (UTF-16 code units, as `length` counts them), holds no white space and is
lower-cased: it is one of the pieces between white space of the lower-cased text, made of
characters of that text. -/
theorem topic_words_are_content_words (toLowerCase : String → String)
    (userMessages : List Turn) :
    (extractKeyTopics toLowerCase userMessages = none ↔
      ∃ w ∈ contentWords toLowerCase userMessages, w ∈ inheritedFunctionNames) ∧
    ∀ r, extractKeyTopics toLowerCase userMessages = some r →
      ∀ t ∈ r, t.word ∉ commonWords ∧ 3 < jsLength t.word ∧
        (∀ c ∈ t.word.data, isJsWhiteSpace c = false) ∧
        t.word ∈ splitWhiteSpace (toLowerCase
          (" ".intercalate (userMessages.map (fun msg => jsToString msg.message)))) ∧
        (∀ c ∈ t.word.data, c ∈ (toLowerCase
          (" ".intercalate (userMessages.map (fun msg => jsToString msg.message)))).data) := by
  constructor
  · constructor
    · intro h
      by_contra hno
      have hfn : ∀ w ∈ contentWords toLowerCase userMessages, w ∉ inheritedFunctionNames :=
        fun w hw hin => hno ⟨w, hw, hin⟩
      rw [extractKeyTopics_of_no_inherited toLowerCase userMessages hfn] at h
      exact absurd h (by simp)
    · rintro ⟨w, hw, hin⟩
      unfold extractKeyTopics
      simp only
      rw [if_pos]
      simp only [List.any_eq_true]
      exact ⟨w, hw, by simpa using hin⟩
  · intro r h t ht
    obtain ⟨hw, _, _⟩ := mem_topics toLowerCase userMessages r h t ht
    obtain ⟨hsplit, hlen, hcommon⟩ := (mem_contentWords toLowerCase userMessages t.word).mp hw
    refine ⟨hcommon, hlen, ?_, hsplit, ?_⟩
    · intro c hc
      exact (mem_splitWhiteSpace _ _ hsplit c hc).2
    · intro c hc
      exact (mem_splitWhiteSpace _ _ hsplit c hc).1

/-- A concrete instance of C18: of the words of this turn only Pricing and plans, lower-cased,
are returned. -/
theorem topic_words_are_content_words_witness :
    ∀ t ∈ [({ word := "pricing", count := 1 } : Topic), { word := "plans", count := 1 }],
      t.word ∉ commonWords ∧ 3 < jsLength t.word ∧
        (∀ c ∈ t.word.data, isJsWhiteSpace c = false) ∧
        t.word ∈ splitWhiteSpace (asciiLowerCase
          (" ".intercalate ([userTurn "The Pricing of  the plans"].map
            (fun msg => jsToString msg.message)))) ∧
        (∀ c ∈ t.word.data, c ∈ (asciiLowerCase
          (" ".intercalate ([userTurn "The Pricing of  the plans"].map
            (fun msg => jsToString msg.message)))).data) :=
  (topic_words_are_content_words asciiLowerCase [userTurn "The Pricing of  the plans"]).2
    [{ word := "pricing", count := 1 }, { word := "plans", count := 1 }] (by decide)

/-- A word that names a function inherited from `Object.prototype` takes the counter out of
the numbers: the model gives no result. -/
theorem extractKeyTopics_on_inherited_name :
    extractKeyTopics asciiLowerCase [userTurn "constructor"] = none := by
  decide

/-! ## What each handler leaves alone -/

theorem recordMessage_frame (render : State) (now : String) (data : Payload) (s : State) :
    SameSpeech s (recordMessage render now data s) ∧
    SameCapture s (recordMessage render now data s) ∧
    (recordMessage render now data s).sent = s.sent ∧
    (recordMessage render now data s).wsReadyState = s.wsReadyState ∧
    (recordMessage render now data s).connected = s.connected := by
  unfold recordMessage SameSpeech SameCapture
  split_ifs <;> exact ⟨⟨rfl, rfl, rfl, rfl⟩, ⟨rfl, rfl⟩, rfl, rfl, rfl⟩

theorem speakTextOf_frame (render : State) (text : JsVal) (s : State) :
    SameCapture s (speakTextOf render text s) ∧ SameTraffic s (speakTextOf render text s) ∧
    (speakTextOf render text s).voiceEnabled = s.voiceEnabled ∧
    (speakTextOf render text s).hasSpeechSynthesis = s.hasSpeechSynthesis := by
  unfold speakTextOf SameCapture SameTraffic
  split_ifs <;> exact ⟨⟨rfl, rfl⟩, ⟨rfl, rfl, rfl, rfl⟩, rfl, rfl⟩

theorem speakText_frame (text : JsVal) (s : State) :
    SameCapture s (speakText text s) ∧ SameTraffic s (speakText text s) ∧
    (speakText text s).voiceEnabled = s.voiceEnabled ∧
    (speakText text s).hasSpeechSynthesis = s.hasSpeechSynthesis :=
  speakTextOf_frame s text s

theorem speakText_of_disabled (text : JsVal) (s : State) (h : s.voiceEnabled = false) :
    speakText text s = s := by
  unfold speakText speakTextOf
  rw [if_pos (by simp [h])]

theorem speakText_of_enabled (text : JsVal) (s : State) (hv : s.voiceEnabled = true)
    (hs : s.hasSpeechSynthesis = true) :
    speakText text s = { s with synthQueue := [text], speakLog := s.speakLog ++ [text] } := by
  unfold speakText speakTextOf
  rw [if_neg (by simp [hv, hs])]

/-- The `speakText` of the first render, for which voice is enabled, speaks whenever the
synthesis service exists. -/
theorem speakTextOf_initialState (text : JsVal) (s : State)
    (hs : s.hasSpeechSynthesis = true) :
    speakTextOf initialState text s =
      { s with synthQueue := [text], speakLog := s.speakLog ++ [text] } := by
  have hv : initialState.voiceEnabled = true := rfl
  unfold speakTextOf
  rw [if_neg (by simp [hv, hs])]

/-- The fields `ws.onmessage` never writes. -/
theorem onmessage_frame (now : String) (parsed : Option Payload) (s : State) :
    SameCapture s (onmessage now parsed s) ∧
    (onmessage now parsed s).sent = s.sent ∧
    (onmessage now parsed s).wsReadyState = s.wsReadyState ∧
    (onmessage now parsed s).connected = s.connected ∧
    (onmessage now parsed s).voiceEnabled = s.voiceEnabled ∧
    (onmessage now parsed s).hasSpeechSynthesis = s.hasSpeechSynthesis := by
  cases parsed with
  | none => exact ⟨⟨rfl, rfl⟩, rfl, rfl, rfl, rfl, rfl⟩
  | some data =>
    cases herr : truthy data.error with
    | true =>
      rw [onmessage_of_error now data s herr]
      exact ⟨⟨rfl, rfl⟩, rfl, rfl, rfl, rfl, rfl⟩
    | false =>
      by_cases hci : data.type = .str "connection_info"
      · rw [onmessage_of_connection_info now data s herr hci]
        exact ⟨⟨rfl, rfl⟩, rfl, rfl, rfl, rfl, rfl⟩
      · obtain ⟨⟨hv, hs, _, _⟩, ⟨hr, hl⟩, hsent, hws, hc⟩ :=
          recordMessage_frame initialState now data s
        obtain ⟨⟨hr1, hl1⟩, ⟨_, hsent1, hws1, hc1⟩, hv1, hs1⟩ :=
          speakTextOf_frame initialState data.message (recordMessage initialState now data s)
        unfold onmessage onmessageOf SameCapture
        simp only [herr, hci, Bool.false_eq_true, if_false]
        split_ifs <;>
          simp only [hr, hl, hsent, hws, hc, hv, hs, hr1, hl1, hsent1, hws1, hc1, hv1, hs1,
            and_self]

/-- What `ws.onmessage` does to the speech output: nothing, or one call of `speak` that
replaces the queue. -/
theorem onmessage_speech (now : String) (parsed : Option Payload) (s : State) :
    ((onmessage now parsed s).synthQueue = s.synthQueue ∧
      (onmessage now parsed s).speakLog = s.speakLog) ∨
    (∃ text, (onmessage now parsed s).synthQueue = [text] ∧
      (onmessage now parsed s).speakLog = s.speakLog ++ [text]) := by
  have hv0 : initialState.voiceEnabled = true := rfl
  cases parsed with
  | none => exact Or.inl ⟨rfl, rfl⟩
  | some data =>
    cases herr : truthy data.error with
    | true =>
      rw [onmessage_of_error now data s herr]
      exact Or.inl ⟨rfl, rfl⟩
    | false =>
      by_cases hci : data.type = .str "connection_info"
      · rw [onmessage_of_connection_info now data s herr hci]
        exact Or.inl ⟨rfl, rfl⟩
      · obtain ⟨⟨hv, hs, hlog, hq⟩, _⟩ := recordMessage_frame initialState now data s
        by_cases hsp : truthy data.message = true ∧ s.hasSpeechSynthesis = true
        · obtain ⟨hm, hs1⟩ := hsp
          refine Or.inr ⟨data.message, ?_⟩
          have hsp := speakTextOf_initialState data.message
            (recordMessage initialState now data s) (hs.trans hs1)
          unfold onmessage onmessageOf
          simp only [herr, hci, hm, hv0, hs1, Bool.false_eq_true, if_false, if_true,
            Bool.and_self, hsp]
          split_ifs <;> simp only [hlog, and_self]
        · refine Or.inl ?_
          unfold onmessage onmessageOf
          simp only [herr, hci, Bool.false_eq_true, if_false]
          cases hm : truthy data.message with
          | true =>
            have hvs : (initialState.voiceEnabled && s.hasSpeechSynthesis) = false := by
              rw [Bool.eq_false_iff]
              intro h
              simp only [Bool.and_eq_true] at h
              exact hsp ⟨hm, h.2⟩
            simp only [hvs, if_true, Bool.false_eq_true, if_false]
            split_ifs <;> simp only [hlog, hq, and_self]
          | false =>
            simp only [Bool.false_eq_true, if_false]
            split_ifs <;> simp only [and_self]

theorem sendMessage_frame (now message type : String) (s : State) :
    SameSpeech s (sendMessage now message type s) ∧
    SameCapture s (sendMessage now message type s) ∧
    (sendMessage now message type s).wsReadyState = s.wsReadyState ∧
    (sendMessage now message type s).connected = s.connected := by
  unfold SameSpeech SameCapture
  by_cases hg : jsTrim message = "" ∨ s.loading = true ∨ s.connected = false
  · rw [sendMessage_of_guard now message type s hg]
    exact ⟨⟨rfl, rfl, rfl, rfl⟩, ⟨rfl, rfl⟩, rfl, rfl⟩
  · rw [sendMessage_of_not_guard now message type s hg]
    exact ⟨⟨rfl, rfl, rfl, rfl⟩, ⟨rfl, rfl⟩, rfl, rfl⟩

theorem onresult_frame (now : String) (event : SpeechResultEvent) (s : State) :
    SameSpeech s (onresult now event s) ∧ SameCapture s (onresult now event s) ∧
    SameTraffic s (onresult now event s) ∧
    (onresult now event s).showSummary = s.showSummary ∧
    (onresult now event s).conversationSummary = s.conversationSummary := by
  rw [onresult_eq]
  split <;> exact ⟨⟨rfl, rfl, rfl, rfl⟩, ⟨rfl, rfl⟩, ⟨rfl, rfl, rfl, rfl⟩, rfl, rfl⟩

theorem onerror_frame (error : String) (s : State) :
    SameSpeech s (onerror error s) ∧ SameTraffic s (onerror error s) ∧
    (onerror error s).showSummary = s.showSummary ∧
    (onerror error s).conversationSummary = s.conversationSummary := by
  unfold onerror stopMicLevelMonitoring SameSpeech SameTraffic
  simp only
  split_ifs <;> exact ⟨⟨rfl, rfl, rfl, rfl⟩, ⟨rfl, rfl, rfl, rfl⟩, rfl, rfl⟩

theorem startRecording_frame (s : State) :
    SameSpeech s (startRecording s) ∧ SameTraffic s (startRecording s) := by
  unfold startRecording SameSpeech SameTraffic
  split_ifs <;> exact ⟨⟨rfl, rfl, rfl, rfl⟩, ⟨rfl, rfl, rfl, rfl⟩⟩

theorem stopRecording_frame (s : State) :
    SameSpeech s (stopRecording s) ∧ SameTraffic s (stopRecording s) := by
  unfold stopRecording SameSpeech SameTraffic
  split_ifs <;> exact ⟨⟨rfl, rfl, rfl, rfl⟩, ⟨rfl, rfl, rfl, rfl⟩⟩

theorem toggleVoice_frame (s : State) :
    SameCapture s (toggleVoice s) ∧ SameTraffic s (toggleVoice s) ∧
    (toggleVoice s).speakLog = s.speakLog ∧
    (toggleVoice s).hasSpeechSynthesis = s.hasSpeechSynthesis := by
  unfold toggleVoice SameCapture SameTraffic
  simp only
  split_ifs <;> exact ⟨⟨rfl, rfl⟩, ⟨rfl, rfl, rfl, rfl⟩, rfl, rfl⟩

theorem endConversation_frame (toLowerCase : String → String) (toLocaleString : Int → String)
    (endTime : Int) (s : State) :
    SameSpeech s (endConversation toLowerCase toLocaleString endTime s) ∧
    SameCapture s (endConversation toLowerCase toLocaleString endTime s) ∧
    (endConversation toLowerCase toLocaleString endTime s).messages = s.messages ∧
    (endConversation toLowerCase toLocaleString endTime s).sent = s.sent ∧
    (endConversation toLowerCase toLocaleString endTime s).connected = s.connected ∧
    (endConversation toLowerCase toLocaleString endTime s).recognitionStops =
      s.recognitionStops ∧
    (endConversation toLowerCase toLocaleString endTime s).recognitionStarted =
      s.recognitionStarted ∧
    (endConversation toLowerCase toLocaleString endTime s).isSpeaking = s.isSpeaking ∧
    (endConversation toLowerCase toLocaleString endTime s).trackStops = s.trackStops ∧
    (endConversation toLowerCase toLocaleString endTime s).audioContextCloses =
      s.audioContextCloses ∧
    ((endConversation toLowerCase toLocaleString endTime s).wsReadyState = s.wsReadyState ∨
      (endConversation toLowerCase toLocaleString endTime s).wsReadyState =
        WebSocket.close s.wsReadyState) := by
  unfold endConversation SameSpeech SameCapture
  split
  · exact ⟨⟨rfl, rfl, rfl, rfl⟩, ⟨rfl, rfl⟩, rfl, rfl, rfl, rfl, rfl, rfl, rfl, rfl, Or.inl rfl⟩
  · exact ⟨⟨rfl, rfl, rfl, rfl⟩, ⟨rfl, rfl⟩, rfl, rfl, rfl, rfl, rfl, rfl, rfl, rfl, Or.inr rfl⟩


/-! ## Sends on a socket that is not open, speech for every message, names -/

/-- C27: with the connected flag true, no send pending and a non-blank message, `sendMessage`
appends the participant turn, sets the busy indicator and clears the input whatever the ready
state of the socket; it transmits the payload if and only if the ready state is OPEN, and
transmits nothing otherwise (as after `endConversation` has called `close`, before the close
event arrives). -/
theorem sendMessage_transmits_iff_open (now message type : String) (s : State)
    (hm : jsTrim message ≠ "") (hc : s.connected = true) (hl : s.loading = false) :
    (sendMessage now message type s).messages =
      s.messages ++ [⟨"user", .str message, now, .str type⟩] ∧
    (sendMessage now message type s).loading = true ∧
    (sendMessage now message type s).currentMessage = "" ∧
    (s.wsReadyState ≠ some WebSocket.OPEN → (sendMessage now message type s).sent = s.sent) ∧
    (s.wsReadyState = some WebSocket.OPEN →
      (sendMessage now message type s).sent = s.sent ++ [⟨message, type⟩]) ∧
    ((sendMessage now message type s).sent ≠ s.sent ↔ s.wsReadyState = some WebSocket.OPEN) := by
  have hg : ¬ (jsTrim message = "" ∨ s.loading = true ∨ s.connected = false) := by
    simp [hm, hc, hl]
  rw [sendMessage_of_not_guard now message type s hg]
  have hsent : ({ s with
      messages := s.messages ++ [⟨"user", .str message, now, .str type⟩]
      loading := true
      sent :=
        if s.wsReadyState = some WebSocket.OPEN then
          s.sent ++ [{ message := message, type := type }]
        else s.sent
      currentMessage := "" } : State).sent =
      if s.wsReadyState = some WebSocket.OPEN then s.sent ++ [⟨message, type⟩] else s.sent :=
    rfl
  refine ⟨rfl, rfl, rfl, ?_, ?_, ?_⟩
  · intro h
    rw [hsent, if_neg h]
  · intro h
    rw [hsent, if_pos h]
  · rw [hsent]
    by_cases h : s.wsReadyState = some WebSocket.OPEN
    · rw [if_pos h]
      refine ⟨fun _ => h, fun _ hh => ?_⟩
      have := congrArg List.length hh
      simp at this
    · rw [if_neg h]
      exact ⟨fun hh => absurd rfl hh, fun hh => absurd hh h⟩

/-- A concrete instance of C27: the conversation was ended while the socket was open, the
close event has not arrived yet, and the user sends a message. -/
theorem sendMessage_transmits_iff_open_witness :
    (sendMessage "10:05" "one more thing" "text"
        (endConversation asciiLowerCase toString 90000
          { initialState with connected := true, wsReadyState := some 1 })).messages =
      (endConversation asciiLowerCase toString 90000
          { initialState with connected := true, wsReadyState := some 1 }).messages ++
        [⟨"user", .str "one more thing", "10:05", .str "text"⟩] ∧
    (sendMessage "10:05" "one more thing" "text"
        (endConversation asciiLowerCase toString 90000
          { initialState with connected := true, wsReadyState := some 1 })).loading = true ∧
    (sendMessage "10:05" "one more thing" "text"
        (endConversation asciiLowerCase toString 90000
          { initialState with connected := true, wsReadyState := some 1 })).sent =
      (endConversation asciiLowerCase toString 90000
          { initialState with connected := true, wsReadyState := some 1 }).sent :=
  have h := sendMessage_transmits_iff_open "10:05" "one more thing" "text"
    (endConversation asciiLowerCase toString 90000
      { initialState with connected := true, wsReadyState := some 1 })
    (by decide) (by decide) (by decide)
  ⟨h.1, h.2.1, h.2.2.2.1 (by decide)⟩

/-- Every payload with a truthy message that is neither error-flagged nor a connection_info
is handed to `speak` when the synthesis service exists, whatever the voice flag holds: the
handler tests the flag of the first render. -/
theorem onmessage_speaks (now : String) (data : Payload) (s : State)
    (herr : truthy data.error = false) (hci : data.type ≠ .str "connection_info")
    (hmsg : truthy data.message = true) (hs : s.hasSpeechSynthesis = true) :
    (onmessage now (some data) s).speakLog = s.speakLog ++ [data.message] ∧
    (onmessage now (some data) s).synthQueue = [data.message] := by
  have hv0 : initialState.voiceEnabled = true := rfl
  obtain ⟨⟨_, hs0, hlog, _⟩, _⟩ := recordMessage_frame initialState now data s
  have hsp := speakTextOf_initialState data.message (recordMessage initialState now data s)
    (hs0.trans hs)
  constructor
  · unfold onmessage onmessageOf
    simp only [herr, hci, hmsg, hv0, hs, Bool.false_eq_true, if_false, if_true, Bool.and_self,
      hsp]
    split_ifs <;> simp only [hlog]
  · unfold onmessage onmessageOf
    simp only [herr, hci, hmsg, hv0, hs, Bool.false_eq_true, if_false, if_true, Bool.and_self,
      hsp]
    split_ifs <;> rfl

/-- C28, evaluated where it fails: a welcome has been recorded and the transcript holds its
turn and a turn of the participant; a second welcome payload does not leave the transcript as
it was but replaces it by its own turn.  Its text is handed to `speakText`, as the claim
says. -/
theorem recorded_welcome_is_replaced_by_later_welcome :
    (onmessage "10:03" (some { type := .str "welcome", message := .str "Hello again" })
        { initialState with
          connected := true, wsReadyState := some WebSocket.OPEN
          initialMessageReceived := true
          messages := [⟨"agent", .str "Hi there", "10:00", .str "welcome"⟩,
            ⟨"user", .str "John", "10:01", .str "text"⟩] }).messages
      = [⟨"agent", .str "Hello again", "10:03", .str "welcome"⟩] ∧
    (onmessage "10:03" (some { type := .str "welcome", message := .str "Hello again" })
        { initialState with
          connected := true, wsReadyState := some WebSocket.OPEN
          initialMessageReceived := true
          messages := [⟨"agent", .str "Hi there", "10:00", .str "welcome"⟩,
            ⟨"user", .str "John", "10:01", .str "text"⟩] }).speakLog
      = [.str "Hello again"] := by
  decide

/-- On every payload without truthy error, connection_info or not, a name the payload carries
replaces the current one, set or not: outside connection_info the handler tests the names of
the first render, which are empty. -/
theorem onmessage_sets_names (now : String) (data : Payload) (s : State)
    (herr : truthy data.error = false) :
    (onmessage now (some data) s).agentName =
      (if truthy data.agent_name = true then data.agent_name else s.agentName) ∧
    (onmessage now (some data) s).participantName =
      (if truthy data.participant_name = true then data.participant_name
        else s.participantName) := by
  by_cases hci : data.type = .str "connection_info"
  · rw [onmessage_of_connection_info now data s herr hci]
    exact ⟨rfl, rfl⟩
  · have h1 : (recordMessage initialState now data s).agentName = s.agentName ∧
        (recordMessage initialState now data s).participantName = s.participantName := by
      unfold recordMessage
      split_ifs <;> exact ⟨rfl, rfl⟩
    have h2 : (speakTextOf initialState data.message
          (recordMessage initialState now data s)).agentName =
          (recordMessage initialState now data s).agentName ∧
        (speakTextOf initialState data.message
          (recordMessage initialState now data s)).participantName =
          (recordMessage initialState now data s).participantName := by
      unfold speakTextOf
      split_ifs <;> exact ⟨rfl, rfl⟩
    have h3 := h2.1.trans h1.1
    have h4 := h2.2.trans h1.2
    obtain ⟨h5, h6⟩ := h1
    have ha : truthy initialState.agentName = false := rfl
    have hp : truthy initialState.participantName = false := rfl
    unfold onmessage onmessageOf
    simp only [herr, hci, Bool.false_eq_true, if_false, ha, hp, Bool.not_false, Bool.and_true]
    constructor
    · simp only [apply_ite State.agentName, h3, h5, ite_self]
    · simp only [apply_ite State.participantName, h4, h6, ite_self]

/-- C29, evaluated where it fails: both names are set; a payload that is not a
connection_info and carries other names overwrites them. -/
theorem message_payload_overwrites_names :
    (onmessage "10:00"
        (some { message := .str "Hello", agent_name := .str "Bea",
                participant_name := .str "Jane" })
        { initialState with
          connected := true, wsReadyState := some WebSocket.OPEN
          agentName := .str "Ada", participantName := .str "John" }).agentName
      = .str "Bea" ∧
    (onmessage "10:00"
        (some { message := .str "Hello", agent_name := .str "Bea",
                participant_name := .str "Jane" })
        { initialState with
          connected := true, wsReadyState := some WebSocket.OPEN
          agentName := .str "Ada", participantName := .str "John" }).participantName
      = .str "Jane" := by
  decide


/-! ## Starting capture twice, ending the conversation -/

/-- C23 as stated fails: with capture listening, `startRecording` resets isRecording to false
and raises an error toast, while isListening stays true and the session goes on. -/
theorem startRecording_while_listening_resets_flag :
    (startRecording
        { initialState with
          recognitionRef := true, recognitionStarted := true, recognitionStarts := 1
          isRecording := true, isListening := true }).isRecording = false ∧
    (startRecording
        { initialState with
          recognitionRef := true, recognitionStarted := true, recognitionStarts := 1
          isRecording := true, isListening := true }).isListening = true ∧
    (startRecording
        { initialState with
          recognitionRef := true, recognitionStarted := true, recognitionStarts := 1
          isRecording := true, isListening := true }).toasts =
      [Toast.error (.str "Could not start voice recording")] := by
  decide

/-- C23, amended: calling `startRecording` while the recognition session is already started
starts no second session, so no second `recognition.onstart` is produced, and leaves
isListening as it was; the rejected start resets isRecording to false and raises the error
toast of a failed start. -/
theorem startRecording_while_started (s : State) (href : s.recognitionRef = true)
    (hstarted : s.recognitionStarted = true) :
    (startRecording s).recognitionStarts = s.recognitionStarts ∧
    (startRecording s).recognitionStarted = true ∧
    (startRecording s).isListening = s.isListening ∧
    (startRecording s).isRecording = false ∧
    (startRecording s).toasts =
      s.toasts ++ [Toast.error (.str "Could not start voice recording")] := by
  unfold startRecording
  rw [if_pos href, if_pos hstarted]
  exact ⟨rfl, hstarted, rfl, rfl, rfl⟩

/-- A concrete instance of the amended C23. -/
theorem startRecording_while_started_witness :
    (startRecording
        { initialState with
          recognitionRef := true, recognitionStarted := true, recognitionStarts := 1
          isRecording := true, isListening := true }).recognitionStarts =
      ({ initialState with
          recognitionRef := true, recognitionStarted := true, recognitionStarts := 1
          isRecording := true, isListening := true } : State).recognitionStarts ∧
    (startRecording
        { initialState with
          recognitionRef := true, recognitionStarted := true, recognitionStarts := 1
          isRecording := true, isListening := true }).isListening =
      ({ initialState with
          recognitionRef := true, recognitionStarted := true, recognitionStarts := 1
          isRecording := true, isListening := true } : State).isListening :=
  have h := startRecording_while_started
    { initialState with
      recognitionRef := true, recognitionStarted := true, recognitionStarts := 1
      isRecording := true, isListening := true } rfl rfl
  ⟨h.1, h.2.2.1⟩

/-- C25, evaluated where it fails: ending the conversation while capture is listening and
playback is speaking leaves both as they were, stops no recognition, cancels no utterance and
stops no track of the microphone stream, whereas `cleanup`, run on the same state, does stop
the recognition, empty the queue and stop the tracks. -/
theorem endConversation_leaves_devices_running :
    (endConversation asciiLowerCase toString 90000
        { initialState with
          connected := true, wsReadyState := some 1
          recognitionRef := true, recognitionStarted := true, recognitionStarts := 1
          isRecording := true, isListening := true
          micStreamRef := true, audioContextRef := true
          isSpeaking := true, synthQueue := [.str "Hi there"] }) =
      { initialState with
        connected := true, wsReadyState := some 2
        recognitionRef := true, recognitionStarted := true, recognitionStarts := 1
        isRecording := true, isListening := true
        micStreamRef := true, audioContextRef := true
        isSpeaking := true, synthQueue := [.str "Hi there"]
        showSummary := true
        conversationSummary := generateConversationSummary asciiLowerCase toString 90000
          { initialState with
            connected := true, wsReadyState := some 1
            recognitionRef := true, recognitionStarted := true, recognitionStarts := 1
            isRecording := true, isListening := true
            micStreamRef := true, audioContextRef := true
            isSpeaking := true, synthQueue := [.str "Hi there"] }
        toasts := [Toast.success (.str "Conversation ended. Generating summary...")] } ∧
    (cleanup
        { initialState with
          connected := true, wsReadyState := some 1
          recognitionRef := true, recognitionStarted := true, recognitionStarts := 1
          isRecording := true, isListening := true
          micStreamRef := true, audioContextRef := true
          isSpeaking := true, synthQueue := [.str "Hi there"] }) =
      { initialState with
        connected := true, wsReadyState := some 2
        recognitionRef := true, recognitionStarted := true, recognitionStarts := 1
        isRecording := true, isListening := true
        micStreamRef := true, audioContextRef := true
        isSpeaking := true, synthQueue := []
        recognitionStops := 1, trackStops := 1, audioContextCloses := 1 } := by
  decide

/-- Whatever the state, `endConversation` changes neither capture nor playback and stops
neither the recognition nor the tracks of the microphone stream. -/
theorem endConversation_touches_no_device (toLowerCase : String → String)
    (toLocaleString : Int → String) (endTime : Int) (s : State) :
    (endConversation toLowerCase toLocaleString endTime s).isRecording = s.isRecording ∧
    (endConversation toLowerCase toLocaleString endTime s).isListening = s.isListening ∧
    (endConversation toLowerCase toLocaleString endTime s).isSpeaking = s.isSpeaking ∧
    (endConversation toLowerCase toLocaleString endTime s).synthQueue = s.synthQueue ∧
    (endConversation toLowerCase toLocaleString endTime s).recognitionStops =
      s.recognitionStops ∧
    (endConversation toLowerCase toLocaleString endTime s).trackStops = s.trackStops := by
  obtain ⟨⟨_, _, _, hq⟩, ⟨hr, hl⟩, _, _, _, hstops, _, hsp, htr, _⟩ :=
    endConversation_frame toLowerCase toLocaleString endTime s
  exact ⟨hr, hl, hsp, hq, hstops, htr⟩

/-! ## Counts of the key topics -/

/-- C30, evaluated where it fails: for the word constructor the counter starts from the
function the object inherits, so after one occurrence it holds a text and after two that text
with another digit appended, never the number of occurrences; next to it hello is counted as
a number. -/
theorem counter_of_inherited_name_is_text :
    contentWords asciiLowerCase [userTurn "constructor"] = ["constructor"] ∧
    countWordsVal (contentWords asciiLowerCase [userTurn "constructor"]) =
      [("constructor", .text "function Object() \x7b [native code] \x7d1")] ∧
    countWordsVal (contentWords asciiLowerCase [userTurn "hello constructor constructor"]) =
      [("hello", .num 1), ("constructor", .text "function Object() \x7b [native code] \x7d11")] ∧
    extractKeyTopics asciiLowerCase [userTurn "constructor"] = none := by
  decide

theorem bumpVal_map_num (w : String) (hw : w ∉ inheritedFunctionNames)
    (acc : List (String × Nat)) :
    bumpVal w (acc.map (fun e => (e.1, CountVal.num e.2))) =
      (bump w acc).map (fun e => (e.1, CountVal.num e.2)) := by
  induction acc with
  | nil =>
    simp [bumpVal, bump, hw]
  | cons e rest ih =>
    obtain ⟨k, n⟩ := e
    simp only [List.map_cons, bumpVal, bump]
    by_cases h : k = w
    · simp [h]
    · simp [h, ih]

/-- Away from the names of inherited functions the counters are the numbers of `countWords`. -/
theorem countWordsVal_eq (ws : List String) (h : ∀ w ∈ ws, w ∉ inheritedFunctionNames) :
    countWordsVal ws = (countWords ws).map (fun e => (e.1, CountVal.num e.2)) := by
  induction ws using List.reverseRecOn with
  | nil => rfl
  | append_singleton ws w ih =>
    have ih1 := ih (fun v hv => h v (List.mem_append_left _ hv))
    have hw := h w (by simp)
    rw [countWords_append_singleton]
    unfold countWordsVal at ih1 ⊢
    rw [List.foldl_append, ih1]
    simp only [List.foldl_cons, List.foldl_nil, countWord]
    by_cases hp : w = "__proto__"
    · simp [hp]
    · simp only [hp, if_false]
      exact bumpVal_map_num w hw _

/-- What `extractKeyTopics` does achieve for the counts: the returned words are pairwise
distinct and each count is at least 1 and is the number of occurrences of the word among the
pieces of the lower-cased text. -/
theorem topic_counts (toLowerCase : String → String) (userMessages : List Turn)
    (r : List Topic) (h : extractKeyTopics toLowerCase userMessages = some r) :
    (r.map Topic.word).Nodup ∧
    ∀ t ∈ r, 1 ≤ t.count ∧
      t.count = (splitWhiteSpace (allText toLowerCase userMessages)).count t.word := by
  constructor
  · rw [extractKeyTopics_eq_some toLowerCase userMessages r h, List.map_map]
    have hk : ((objectEntries (countWords (contentWords toLowerCase userMessages))).insertionSort
        countOrder).map Prod.fst |>.Nodup := by
      have hp := ((List.perm_insertionSort countOrder _).trans
        (objectEntries_perm (countWords (contentWords toLowerCase userMessages)))).map Prod.fst
      exact hp.nodup_iff.mpr (countWords_spec _).1
    exact hk.sublist ((List.take_sublist 5 _).map Prod.fst)
  · intro t ht
    obtain ⟨hw, _, hc⟩ := mem_topics toLowerCase userMessages r h t ht
    have hcount : (contentWords toLowerCase userMessages).count t.word =
        (splitWhiteSpace (allText toLowerCase userMessages)).count t.word := by
      obtain ⟨_, hlen, hcommon⟩ := (mem_contentWords toLowerCase userMessages t.word).mp hw
      unfold contentWords
      apply List.count_filter
      simp [hlen, hcommon]
    refine ⟨?_, hc.trans hcount⟩
    rw [hc]
    exact List.count_pos_iff.mpr hw


/-! ## The session as a whole -/

theorem runActions_cons (toLowerCase : String → String) (toLocaleString : Int → String)
    (s : State) (a : Action) (acts : List Action) :
    runActions toLowerCase toLocaleString s (a :: acts) =
      runActions toLowerCase toLocaleString (act toLowerCase toLocaleString s a) acts := rfl

theorem onclose_frame (code : Nat) (s : State) :
    SameSpeech s (onclose code s) ∧ SameCapture s (onclose code s) ∧
    (onclose code s).messages = s.messages ∧ (onclose code s).sent = s.sent ∧
    (onclose code s).wsReadyState = s.wsReadyState ∧ (onclose code s).connected = false ∧
    summaryShown (onclose code s) = summaryShown s := by
  unfold onclose SameSpeech SameCapture
  simp only
  split_ifs <;> exact ⟨⟨rfl, rfl, rfl, rfl⟩, ⟨rfl, rfl⟩, rfl, rfl, rfl, rfl, rfl⟩

theorem setupMicLevelMonitoring_frame (granted : Bool) (s : State) :
    SameSpeech s (setupMicLevelMonitoring granted s) ∧
    SameCapture s (setupMicLevelMonitoring granted s) ∧
    SameTraffic s (setupMicLevelMonitoring granted s) := by
  cases granted <;> exact ⟨⟨rfl, rfl, rfl, rfl⟩, ⟨rfl, rfl⟩, ⟨rfl, rfl, rfl, rfl⟩⟩

/-- Every action other than start, stop and the events of the recognition object leaves the
capture state as it was. -/
theorem act_capture (toLowerCase : String → String) (toLocaleString : Int → String)
    (s : State) (a : Action) (h : a.touchesCapture = false) :
    SameCapture s (act toLowerCase toLocaleString s a) := by
  cases a with
  | inbound now parsed =>
    simp only [act]
    split
    · exact (onmessage_frame now parsed s).1
    · exact ⟨rfl, rfl⟩
  | send now message type =>
    simp only [act]
    split
    · exact ⟨rfl, rfl⟩
    · exact (sendMessage_frame now message type s).2.1
  | submit now =>
    simp only [act]
    split
    · exact ⟨rfl, rfl⟩
    · exact (sendMessage_frame now s.currentMessage "text" s).2.1
  | typing text =>
    simp only [act]
    split <;> exact ⟨rfl, rfl⟩
  | result now event => exact (onresult_frame now event s).2.1
  | speak text => exact (speakText_frame text s).1
  | toggleVoice =>
    simp only [act]
    split
    · exact ⟨rfl, rfl⟩
    · exact (toggleVoice_frame s).1
  | utteranceStart => exact ⟨rfl, rfl⟩
  | utteranceEnd current => cases current <;> exact ⟨rfl, rfl⟩
  | utteranceError current => cases current <;> exact ⟨rfl, rfl⟩
  | startRecording => exact absurd h (by decide)
  | stopRecording => exact absurd h (by decide)
  | recognitionStart => exact absurd h (by decide)
  | recognitionEnd => exact absurd h (by decide)
  | recognitionError error => exact absurd h (by simp [Action.touchesCapture])
  | micStream granted => exact (setupMicLevelMonitoring_frame granted s).2.1
  | wsOpen =>
    simp only [act]
    split <;> exact ⟨rfl, rfl⟩
  | wsError => exact ⟨rfl, rfl⟩
  | wsClose code =>
    simp only [act]
    split
    · exact ⟨rfl, rfl⟩
    · exact (onclose_frame code { s with wsReadyState := some 3 }).2.1
  | endConversation endTime =>
    simp only [act]
    split
    · exact ⟨rfl, rfl⟩
    · exact (endConversation_frame toLowerCase toLocaleString endTime s).2.1

/-- What an action can do to the queue of the synthesis channel: leave it, drop its head,
empty it, or replace it by one utterance. -/
theorem act_speech (toLowerCase : String → String) (toLocaleString : Int → String)
    (s : State) (a : Action) :
    (act toLowerCase toLocaleString s a).synthQueue = s.synthQueue ∨
    (act toLowerCase toLocaleString s a).synthQueue = s.synthQueue.drop 1 ∨
    (act toLowerCase toLocaleString s a).synthQueue = [] ∨
    ∃ text, (act toLowerCase toLocaleString s a).synthQueue = [text] := by
  have same : ∀ t : State, SameSpeech s t →
      (t.synthQueue = s.synthQueue ∨ t.synthQueue = s.synthQueue.drop 1 ∨ t.synthQueue = [] ∨
        ∃ text, t.synthQueue = [text]) :=
    fun t ht => Or.inl ht.2.2.2
  have spoken : ∀ t : State,
      ((t.synthQueue = s.synthQueue ∧ t.speakLog = s.speakLog) ∨
        (∃ text, t.synthQueue = [text] ∧ t.speakLog = s.speakLog ++ [text])) →
      (t.synthQueue = s.synthQueue ∨ t.synthQueue = s.synthQueue.drop 1 ∨ t.synthQueue = [] ∨
        ∃ text, t.synthQueue = [text]) := by
    intro t hcase
    rcases hcase with ⟨hq, _⟩ | ⟨text, hq, _⟩
    · exact Or.inl hq
    · exact Or.inr (Or.inr (Or.inr ⟨text, hq⟩))
  cases a with
  | inbound now parsed =>
    simp only [act]
    split
    · exact spoken _ (onmessage_speech now parsed s)
    · exact Or.inl rfl
  | send now message type =>
    simp only [act]
    split
    · exact Or.inl rfl
    · exact same _ (sendMessage_frame now message type s).1
  | submit now =>
    simp only [act]
    split
    · exact Or.inl rfl
    · exact same _ (sendMessage_frame now s.currentMessage "text" s).1
  | typing text =>
    simp only [act]
    split <;> exact Or.inl rfl
  | result now event => exact same _ (onresult_frame now event s).1
  | speak text =>
    simp only [act]
    cases hv : s.voiceEnabled with
    | false =>
      rw [speakText_of_disabled text s hv]
      exact Or.inl rfl
    | true =>
      cases hs : s.hasSpeechSynthesis with
      | false =>
        have : speakText text s = s := by
          unfold speakText speakTextOf
          rw [if_pos (by simp [hs])]
        rw [this]
        exact Or.inl rfl
      | true =>
        rw [speakText_of_enabled text s hv hs]
        exact Or.inr (Or.inr (Or.inr ⟨text, rfl⟩))
  | toggleVoice =>
    simp only [act, toggleVoice]
    split_ifs
    · exact Or.inl rfl
    · exact Or.inr (Or.inr (Or.inl rfl))
    · exact Or.inl rfl
    · exact Or.inl rfl
  | utteranceStart => exact Or.inl rfl
  | utteranceEnd current =>
    cases current
    · exact Or.inl rfl
    · exact Or.inr (Or.inl rfl)
  | utteranceError current =>
    cases current
    · exact Or.inl rfl
    · exact Or.inr (Or.inl rfl)
  | startRecording =>
    simp only [act]
    split
    · exact Or.inl rfl
    · exact same _ (startRecording_frame s).1
  | stopRecording =>
    simp only [act]
    split
    · exact Or.inl rfl
    · exact same _ (stopRecording_frame s).1
  | recognitionStart => exact Or.inl rfl
  | recognitionEnd => exact Or.inl rfl
  | recognitionError error => exact same _ (onerror_frame error s).1
  | micStream granted => exact same _ (setupMicLevelMonitoring_frame granted s).1
  | wsOpen =>
    simp only [act]
    split <;> exact Or.inl rfl
  | wsError => exact Or.inl rfl
  | wsClose code =>
    simp only [act]
    split
    · exact Or.inl rfl
    · exact same _ (onclose_frame code { s with wsReadyState := some 3 }).1
  | endConversation endTime =>
    simp only [act]
    split
    · exact Or.inl rfl
    · exact same _ (endConversation_frame toLowerCase toLocaleString endTime s).1

theorem runActions_synthQueue (toLowerCase : String → String) (toLocaleString : Int → String)
    (acts : List Action) :
    ∀ s : State, s.synthQueue.length ≤ 1 →
      (runActions toLowerCase toLocaleString s acts).synthQueue.length ≤ 1 := by
  induction acts with
  | nil => intro s h; exact h
  | cons a acts ih =>
    intro s h
    rw [runActions_cons]
    apply ih
    rcases act_speech toLowerCase toLocaleString s a with h1 | h1 | h1 | ⟨text, h1⟩
    · rw [h1]; exact h
    · rw [h1, List.length_drop]; omega
    · rw [h1]; exact Nat.zero_le 1
    · rw [h1]; exact Nat.le_refl 1

/-- When the summary can be computed, `endConversation` shows it and leaves the socket
neither connecting nor open. -/
theorem endConversation_closes (toLowerCase : String → String) (toLocaleString : Int → String)
    (endTime : Int) (s : State) (hstr : ∀ t ∈ s.messages.take 3, t.message.isString = true) :
    (endConversation toLowerCase toLocaleString endTime s).wsReadyState ≠ some 0 ∧
    (endConversation toLowerCase toLocaleString endTime s).wsReadyState ≠
      some WebSocket.OPEN ∧
    summaryShown (endConversation toLowerCase toLocaleString endTime s) = true := by
  unfold endConversation
  rw [generateConversationSummary_of_str toLowerCase toLocaleString endTime s hstr]
  simp only
  refine ⟨?_, ?_, rfl⟩ <;>
  · unfold WebSocket.close
    split <;> simp_all [WebSocket.OPEN]

/-- While the summary is shown and the socket is neither connecting nor open, an action
changes neither the transcript nor the payloads transmitted, and the summary stays shown and
the socket neither connecting nor open: inbound payloads are not delivered, the calls of the
user interface are not there to be made, and the handler of speech results gets no further
than the input field. -/
theorem act_ended (toLowerCase : String → String) (toLocaleString : Int → String)
    (s : State) (a : Action) (hsum : summaryShown s = true)
    (h0 : s.wsReadyState ≠ some 0) (h1 : s.wsReadyState ≠ some WebSocket.OPEN) :
    summaryShown (act toLowerCase toLocaleString s a) = true ∧
    (act toLowerCase toLocaleString s a).wsReadyState ≠ some 0 ∧
    (act toLowerCase toLocaleString s a).wsReadyState ≠ some WebSocket.OPEN ∧
    (act toLowerCase toLocaleString s a).messages = s.messages ∧
    (act toLowerCase toLocaleString s a).sent = s.sent := by
  have same : ∀ t : State, t.showSummary = s.showSummary →
      t.conversationSummary = s.conversationSummary → SameTraffic s t →
      summaryShown t = true ∧ t.wsReadyState ≠ some 0 ∧ t.wsReadyState ≠ some WebSocket.OPEN ∧
        t.messages = s.messages ∧ t.sent = s.sent := by
    intro t hs1 hs2 ht
    obtain ⟨hm, hsent, hws, _⟩ := ht
    refine ⟨?_, by rw [hws]; exact h0, by rw [hws]; exact h1, hm, hsent⟩
    unfold summaryShown at hsum ⊢
    rw [hs1, hs2]
    exact hsum
  cases a with
  | inbound now parsed =>
    simp only [act]
    rw [if_neg h1]
    exact ⟨hsum, h0, h1, rfl, rfl⟩
  | send now message type =>
    simp only [act]
    rw [if_pos hsum]
    exact ⟨hsum, h0, h1, rfl, rfl⟩
  | submit now =>
    simp only [act]
    rw [if_pos hsum]
    exact ⟨hsum, h0, h1, rfl, rfl⟩
  | typing text =>
    simp only [act]
    rw [if_pos hsum]
    exact ⟨hsum, h0, h1, rfl, rfl⟩
  | result now event =>
    obtain ⟨_, _, ht, hs1, hs2⟩ := onresult_frame now event s
    exact same _ hs1 hs2 ht
  | speak text =>
    have hsm : (speakText text s).showSummary = s.showSummary ∧
        (speakText text s).conversationSummary = s.conversationSummary := by
      unfold speakText speakTextOf
      split_ifs <;> exact ⟨rfl, rfl⟩
    exact same _ hsm.1 hsm.2 (speakText_frame text s).2.1
  | toggleVoice =>
    simp only [act]
    rw [if_pos hsum]
    exact ⟨hsum, h0, h1, rfl, rfl⟩
  | utteranceStart => exact same _ rfl rfl ⟨rfl, rfl, rfl, rfl⟩
  | utteranceEnd current => cases current <;> exact same _ rfl rfl ⟨rfl, rfl, rfl, rfl⟩
  | utteranceError current => cases current <;> exact same _ rfl rfl ⟨rfl, rfl, rfl, rfl⟩
  | startRecording =>
    simp only [act]
    rw [if_pos hsum]
    exact ⟨hsum, h0, h1, rfl, rfl⟩
  | stopRecording =>
    simp only [act]
    rw [if_pos hsum]
    exact ⟨hsum, h0, h1, rfl, rfl⟩
  | recognitionStart => exact same _ rfl rfl ⟨rfl, rfl, rfl, rfl⟩
  | recognitionEnd => exact same _ rfl rfl ⟨rfl, rfl, rfl, rfl⟩
  | recognitionError error =>
    obtain ⟨_, ht, hs1, hs2⟩ := onerror_frame error s
    exact same _ hs1 hs2 ht
  | micStream granted => cases granted <;> exact same _ rfl rfl ⟨rfl, rfl, rfl, rfl⟩
  | wsOpen =>
    simp only [act]
    rw [if_neg h0]
    exact ⟨hsum, h0, h1, rfl, rfl⟩
  | wsError => exact ⟨hsum, h0, h1, rfl, rfl⟩
  | wsClose code =>
    simp only [act]
    split
    · exact ⟨hsum, h0, h1, rfl, rfl⟩
    · obtain ⟨_, _, hm, hsent, hws, _, hsm⟩ :=
        onclose_frame code { s with wsReadyState := some 3 }
      have hws3 : (onclose code { s with wsReadyState := some 3 }).wsReadyState = some 3 := hws
      exact ⟨hsm.trans hsum, by rw [hws3]; simp, by rw [hws3]; simp [WebSocket.OPEN], hm,
        hsent⟩
  | endConversation endTime =>
    simp only [act]
    rw [if_pos hsum]
    exact ⟨hsum, h0, h1, rfl, rfl⟩

/-- Once the summary is shown and the socket is neither connecting nor open, no sequence of
actions changes the transcript or the payloads transmitted. -/
theorem runActions_ended (toLowerCase : String → String) (toLocaleString : Int → String)
    (acts : List Action) :
    ∀ s : State, summaryShown s = true → s.wsReadyState ≠ some 0 →
      s.wsReadyState ≠ some WebSocket.OPEN →
      summaryShown (runActions toLowerCase toLocaleString s acts) = true ∧
      (runActions toLowerCase toLocaleString s acts).wsReadyState ≠ some 0 ∧
      (runActions toLowerCase toLocaleString s acts).wsReadyState ≠ some WebSocket.OPEN ∧
      (runActions toLowerCase toLocaleString s acts).messages = s.messages ∧
      (runActions toLowerCase toLocaleString s acts).sent = s.sent := by
  induction acts with
  | nil => intro s hsum h0 h1; exact ⟨hsum, h0, h1, rfl, rfl⟩
  | cons a acts ih =>
    intro s hsum h0 h1
    obtain ⟨g, g0, g1, gm, gsent⟩ := act_ended toLowerCase toLocaleString s a hsum h0 h1
    obtain ⟨r, r0, r1, rm, rsent⟩ := ih (act toLowerCase toLocaleString s a) g g0 g1
    rw [runActions_cons]
    exact ⟨r, r0, r1, rm.trans gm, rsent.trans gsent⟩

/-- C21: with voice enabled, `speakText a` followed at once by `speakText b` leaves exactly
one utterance on the synthesis channel, namely b; after any sequence of actions (calls of
`speakText` and `toggleVoice` among them) from a state with at most one utterance on the
channel there is at most one; and the end and error callbacks of an utterance, superseded or
not, set the playback state to idle, never to speaking. -/
theorem speakText_supersedes (toLowerCase : String → String) (toLocaleString : Int → String)
    (a b : JsVal) (s : State) (acts : List Action) :
    (s.voiceEnabled = true → s.hasSpeechSynthesis = true →
      (speakText b (speakText a s)).synthQueue = [b] ∧
      (speakText b (speakText a s)).speakLog = s.speakLog ++ [a] ++ [b]) ∧
    (s.synthQueue.length ≤ 1 →
      (runActions toLowerCase toLocaleString s acts).synthQueue.length ≤ 1) ∧
    (utterance.onend s).isSpeaking = false ∧
    (utterance.onerror s).isSpeaking = false ∧
    (act toLowerCase toLocaleString s (.utteranceEnd false)).isSpeaking = false ∧
    (act toLowerCase toLocaleString s (.utteranceError false)).isSpeaking = false ∧
    (act toLowerCase toLocaleString s (.utteranceEnd false)).synthQueue = s.synthQueue ∧
    (act toLowerCase toLocaleString s (.utteranceError false)).synthQueue = s.synthQueue := by
  refine ⟨?_, runActions_synthQueue toLowerCase toLocaleString acts s, rfl, rfl, rfl, rfl,
    rfl, rfl⟩
  intro hv hs
  have h1 := speakText_of_enabled a s hv hs
  have h2 := speakText_of_enabled b (speakText a s)
    ((speakText_frame a s).2.2.1.trans hv) ((speakText_frame a s).2.2.2.trans hs)
  rw [h2, h1]
  exact ⟨rfl, rfl⟩

/-- C22, evaluated where it fails: voice is disabled while an utterance is being spoken, and
then a message arrives.  `toggleVoice` does cancel the utterance and set the playback state
to idle, but the message is spoken all the same, with the voice flag false: `ws.onmessage`
and the `speakText` it calls test the flag of the first render. -/
theorem inbound_message_spoken_after_voice_disabled :
    (act asciiLowerCase toString
        { initialState with
          connected := true, wsReadyState := some 1, isSpeaking := true
          synthQueue := [.str "Hi there"], speakLog := [.str "Hi there"] }
        .toggleVoice).voiceEnabled = false ∧
    (act asciiLowerCase toString
        { initialState with
          connected := true, wsReadyState := some 1, isSpeaking := true
          synthQueue := [.str "Hi there"], speakLog := [.str "Hi there"] }
        .toggleVoice).synthQueue = [] ∧
    (act asciiLowerCase toString
        { initialState with
          connected := true, wsReadyState := some 1, isSpeaking := true
          synthQueue := [.str "Hi there"], speakLog := [.str "Hi there"] }
        .toggleVoice).isSpeaking = false ∧
    (runActions asciiLowerCase toString
        { initialState with
          connected := true, wsReadyState := some 1, isSpeaking := true
          synthQueue := [.str "Hi there"], speakLog := [.str "Hi there"] }
        [.toggleVoice, .inbound "10:01" (some { message := .str "Hello" })]).voiceEnabled
      = false ∧
    (runActions asciiLowerCase toString
        { initialState with
          connected := true, wsReadyState := some 1, isSpeaking := true
          synthQueue := [.str "Hi there"], speakLog := [.str "Hi there"] }
        [.toggleVoice, .inbound "10:01" (some { message := .str "Hello" })]).speakLog
      = [.str "Hi there", .str "Hello"] ∧
    (runActions asciiLowerCase toString
        { initialState with
          connected := true, wsReadyState := some 1, isSpeaking := true
          synthQueue := [.str "Hi there"], speakLog := [.str "Hi there"] }
        [.toggleVoice, .inbound "10:01" (some { message := .str "Hello" })]).synthQueue
      = [.str "Hello"] := by
  decide

/-- C24: every action other than `startRecording`, `stopRecording` and the start, end and
error events of the recognition object leaves isRecording and isListening as they were: an
inbound payload of any kind, a send, `toggleVoice`, the callbacks of speech output, the open,
error and close events of the socket, a speech result, interim or final, and the rest. -/
theorem capture_changes_only_by_capture_actions (toLowerCase : String → String)
    (toLocaleString : Int → String) (s : State) (a : Action)
    (h : a.touchesCapture = false) :
    (act toLowerCase toLocaleString s a).isRecording = s.isRecording ∧
    (act toLowerCase toLocaleString s a).isListening = s.isListening :=
  act_capture toLowerCase toLocaleString s a h

/-- A concrete instance of C24: a final speech result arrives while capture is listening. -/
theorem capture_changes_only_by_capture_actions_witness :
    (act asciiLowerCase toString
        { initialState with
          connected := true, wsReadyState := some 1, isRecording := true, isListening := true }
        (.result "10:00" ⟨0, [⟨"hello there", true⟩]⟩)).isRecording =
      ({ initialState with
          connected := true, wsReadyState := some 1, isRecording := true
          isListening := true } : State).isRecording ∧
    (act asciiLowerCase toString
        { initialState with
          connected := true, wsReadyState := some 1, isRecording := true, isListening := true }
        (.result "10:00" ⟨0, [⟨"hello there", true⟩]⟩)).isListening =
      ({ initialState with
          connected := true, wsReadyState := some 1, isRecording := true
          isListening := true } : State).isListening :=
  capture_changes_only_by_capture_actions asciiLowerCase toString
    { initialState with
      connected := true, wsReadyState := some 1, isRecording := true, isListening := true }
    (.result "10:00" ⟨0, [⟨"hello there", true⟩]⟩) rfl

/-- C26: once `endConversation` has produced the summary, no later action changes the
transcript or transmits a payload, whatever the sequence of actions: an inbound payload is
not handled (the socket is closing or closed and delivers none), a send and a submission of
the form leave the state as it is (the form is no longer shown), and a speech result, final
or not, leaves the transcript, the payloads transmitted and the busy indicator as they
are.  The summary is produced when the texts of the first three turns are strings. -/
theorem ended_session_is_terminal (toLowerCase : String → String)
    (toLocaleString : Int → String) (endTime : Int) (s : State) (acts : List Action)
    (hstr : ∀ t ∈ s.messages.take 3, t.message.isString = true) :
    (runActions toLowerCase toLocaleString
      (endConversation toLowerCase toLocaleString endTime s) acts).messages = s.messages ∧
    (runActions toLowerCase toLocaleString
      (endConversation toLowerCase toLocaleString endTime s) acts).sent = s.sent ∧
    (∀ now parsed,
      act toLowerCase toLocaleString
        (runActions toLowerCase toLocaleString
          (endConversation toLowerCase toLocaleString endTime s) acts) (.inbound now parsed) =
      runActions toLowerCase toLocaleString
        (endConversation toLowerCase toLocaleString endTime s) acts) ∧
    (∀ now message type,
      act toLowerCase toLocaleString
        (runActions toLowerCase toLocaleString
          (endConversation toLowerCase toLocaleString endTime s) acts)
        (.send now message type) =
      runActions toLowerCase toLocaleString
        (endConversation toLowerCase toLocaleString endTime s) acts) ∧
    (∀ now,
      act toLowerCase toLocaleString
        (runActions toLowerCase toLocaleString
          (endConversation toLowerCase toLocaleString endTime s) acts) (.submit now) =
      runActions toLowerCase toLocaleString
        (endConversation toLowerCase toLocaleString endTime s) acts) ∧
    (∀ now event,
      (act toLowerCase toLocaleString
        (runActions toLowerCase toLocaleString
          (endConversation toLowerCase toLocaleString endTime s) acts)
        (.result now event)).messages = s.messages ∧
      (act toLowerCase toLocaleString
        (runActions toLowerCase toLocaleString
          (endConversation toLowerCase toLocaleString endTime s) acts)
        (.result now event)).sent = s.sent ∧
      (act toLowerCase toLocaleString
        (runActions toLowerCase toLocaleString
          (endConversation toLowerCase toLocaleString endTime s) acts)
        (.result now event)).loading =
        (runActions toLowerCase toLocaleString
          (endConversation toLowerCase toLocaleString endTime s) acts).loading) := by
  obtain ⟨h0, h1, hsum⟩ := endConversation_closes toLowerCase toLocaleString endTime s hstr
  obtain ⟨_, _, hm, hsent, _⟩ := endConversation_frame toLowerCase toLocaleString endTime s
  obtain ⟨rsum, _, r1, rm, rsent⟩ :=
    runActions_ended toLowerCase toLocaleString acts _ hsum h0 h1
  refine ⟨rm.trans hm, rsent.trans hsent, ?_, ?_, ?_, ?_⟩
  · intro now parsed
    simp only [act]
    rw [if_neg r1]
  · intro now message type
    simp only [act]
    rw [if_pos rsum]
  · intro now
    simp only [act]
    rw [if_pos rsum]
  · intro now event
    obtain ⟨x1, x2, x3⟩ := onresult_records_nothing now event
      (runActions toLowerCase toLocaleString
        (endConversation toLowerCase toLocaleString endTime s) acts)
    exact ⟨x1.trans (rm.trans hm), x2.trans (rsent.trans hsent), x3⟩

/-- A concrete instance of C26: the conversation is ended after a welcome and a turn of the
participant; then a message arrives, a final speech result comes in, the form is submitted,
the close event arrives and another message is sent. -/
theorem ended_session_is_terminal_witness :
    (runActions asciiLowerCase toString
      (endConversation asciiLowerCase toString 90000
        { initialState with
          connected := true, wsReadyState := some 1, currentMessage := "one more thing"
          messages := [⟨"agent", .str "Hi there", "10:00", .str "welcome"⟩,
            ⟨"user", .str "John", "10:01", .str "text"⟩] })
      [.inbound "10:05" (some { message := .str "Are you there?" }),
        .result "10:06" ⟨0, [⟨"one more thing", true⟩]⟩, .submit "10:07", .wsClose 1000,
        .send "10:08" "anyone there" "text"]).messages =
      [⟨"agent", .str "Hi there", "10:00", .str "welcome"⟩,
        ⟨"user", .str "John", "10:01", .str "text"⟩] ∧
    (runActions asciiLowerCase toString
      (endConversation asciiLowerCase toString 90000
        { initialState with
          connected := true, wsReadyState := some 1, currentMessage := "one more thing"
          messages := [⟨"agent", .str "Hi there", "10:00", .str "welcome"⟩,
            ⟨"user", .str "John", "10:01", .str "text"⟩] })
      [.inbound "10:05" (some { message := .str "Are you there?" }),
        .result "10:06" ⟨0, [⟨"one more thing", true⟩]⟩, .submit "10:07", .wsClose 1000,
        .send "10:08" "anyone there" "text"]).sent = [] :=
  have h := ended_session_is_terminal asciiLowerCase toString 90000
    { initialState with
      connected := true, wsReadyState := some 1, currentMessage := "one more thing"
      messages := [⟨"agent", .str "Hi there", "10:00", .str "welcome"⟩,
        ⟨"user", .str "John", "10:01", .str "text"⟩] }
    [.inbound "10:05" (some { message := .str "Are you there?" }),
      .result "10:06" ⟨0, [⟨"one more thing", true⟩]⟩, .submit "10:07", .wsClose 1000,
      .send "10:08" "anyone there" "text"] (by decide)
  ⟨h.1, h.2.1⟩

end ConversationInterface
